import Mathlib

/-!
The program dumbw, a single-instance network throughput daemon: a shallow
embedding of `main.go` and `i3status.go`.

* Go maps with string keys are association lists with unique keys (`AList`);
  `m[k]` is `AList.lookup`, `m[k] = v` is `AList.insert`, `range m` walks the
  entries (Go leaves the order unspecified; the lemmas below characterise the
  result through `lookup`, which does not depend on the order).
* `uint64` counters are natural numbers.
* `Rate` is `float64` in the source.  Every float the sampler computes is an
  integer (a converted counter, or a difference of two of them divided by
  `1.0`), so a rate is represented by that integer, and the conversions round
  to a 53-bit significand, ties to even, as IEEE-754 binary64 does.
* Panics, fatal exits and returned errors are explicit result values.
-/

namespace Dumbw

/-! ## Constants of `main.go` -/

/-- Column of the interface name in a row of `/proc/net/dev`. -/
def iIface : Nat := 0

/-- Column of the received-bytes counter. -/
def iRxBytes : Nat := 1

/-- Column of the transmitted-bytes counter. -/
def iTxBytes : Nat := 9

/-- The constant `time.Second`, in nanoseconds. -/
def second : Int := 1000000000

/-- The sampling interval: `interval = 1 * time.Second`. -/
def interval : Int := 1 * second

/-! ## binary64 arithmetic on integer values -/

/-- Round `n` to a multiple of `2 ^ e`, to nearest, ties to the even multiple. -/
def roundToEven (n e : Nat) : Nat :=
  let q := n / 2 ^ e
  let r := n % 2 ^ e
  let half := 2 ^ (e - 1)
  if r < half then q * 2 ^ e
  else if half < r then (q + 1) * 2 ^ e
  else if q % 2 = 0 then q * 2 ^ e else (q + 1) * 2 ^ e

/-- How many low-order bits of `n` do not fit in a 53-bit significand
(the first argument bounds the recursion). -/
def excessBits : Nat → Nat → Nat
  | 0, _ => 0
  | fuel + 1, n => if n < 2 ^ 53 then 0 else excessBits fuel (n / 2) + 1

/-- The binary64 value nearest to the natural number `n`: the conversion
`float64(x)` of a `uint64`. -/
def float64OfNat (n : Nat) : Nat := roundToEven n (excessBits n n)

/-- The binary64 value nearest to the integer `x`. -/
def roundF64 (x : Int) : Int :=
  if x < 0 then -((float64OfNat x.natAbs : Nat) : Int) else ((float64OfNat x.toNat : Nat) : Int)

/-- A rate in bytes per second, `type Rate float64`. -/
abbrev Rate := Int

/-- Subtraction of two integer-valued binary64 numbers. -/
def float64Sub (a b : Int) : Int := roundF64 (a - b)

/-- The divisor `float64(interval) / float64(time.Second)` of the rate
formula; both operands are the same exactly representable number, so the
quotient is exactly one. -/
def intervalSeconds : Int := roundF64 interval / roundF64 second

/-- The expression `(float64(new) - float64(old)) / (float64(interval) / float64(time.Second))`
of `runDaemon`.  The divisor is exactly `1.0`, so the division is exact. -/
def rate (new old : Nat) : Rate :=
  float64Sub (float64OfNat new) (float64OfNat old) / intervalSeconds

/-! ## Data model -/

/-- The struct `snapshot`: cumulative byte counters of one interface. -/
structure snapshot where
  rxBytes : Nat
  txBytes : Nat
deriving DecidableEq, Repr

/-- The struct `stats`: both rates and the embedded `snapshot`. -/
structure stats extends snapshot where
  rxRate : Rate
  txRate : Rate
deriving DecidableEq, Repr

/-- The zero value `stats{}`. -/
def stats.zero : stats := { rxBytes := 0, txBytes := 0, rxRate := 0, txRate := 0 }

/-- The map `map[string]snapshot` returned by `getSnapshot`. -/
abbrev SnapMap := AList (fun _ : String => snapshot)

/-- The map `type StatsMap map[string]stats`. -/
abbrev StatsMap := AList (fun _ : String => stats)

/-! ## The sampling loop of `runDaemon` -/

/-- One iteration of the loop `for iface, v := range getSnapshot()`. -/
def sampleEntry (ss : StatsMap) (iface : String) (v : snapshot) : StatsMap :=
  let s := (ss.lookup iface).getD stats.zero
  let rxr := rate v.rxBytes s.rxBytes
  let txr := rate v.txBytes s.txBytes
  ss.insert iface { rxBytes := v.rxBytes, txBytes := v.txBytes, rxRate := rxr, txRate := txr }

/-- The whole loop over one snapshot: the state update of one sampling tick. -/
def sampleTick (ss : StatsMap) (snap : SnapMap) : StatsMap :=
  snap.entries.foldl (fun acc e => sampleEntry acc e.1 e.2) ss

/-- The function `sortedKeys`: the keys of the map in increasing order. -/
def sortedKeys (m : StatsMap) : List String :=
  m.keys.insertionSort (fun a b => a ≤ b)

/-- The function `dumpStats`: one block per interface, in the order of
`sortedKeys`, each carrying the stored entry that the block prints. -/
def dumpStats (ss : StatsMap) : List (String × stats) :=
  (sortedKeys ss).map (fun iface => (iface, (ss.lookup iface).getD stats.zero))

/-- The state of `runDaemon` after the ticks that read the given snapshots,
starting from `ss := StatsMap{}`. -/
def runDaemon (snaps : List SnapMap) : StatsMap :=
  snaps.foldl sampleTick ∅

/-! ## The four queries of the stats service -/

/-- The error values returned over the local channel. -/
inductive error where
  /-- The value `fmt.Errorf("no such interface: %q", iface)`. -/
  | noSuchInterface (iface : String)
  /-- Any error of the transport itself (dialing, a closed connection, an
  unknown method). -/
  | transport (msg : String)
deriving DecidableEq, Repr

/-- What a query method leaves behind: the receiver map, the cell behind the
output pointer and the returned error (`none` is `nil`). -/
structure Reply (α : Type) where
  ss : StatsMap
  out : α
  err : Option error

/-- The method `StatsMap.RxBytes`; `bytes` is the value the output pointer
refers to when the method is entered. -/
def RxBytes (ss : StatsMap) (iface : String) (bytes : Nat) : Reply Nat :=
  match ss.lookup iface with
  | none => { ss := ss, out := bytes, err := some (error.noSuchInterface iface) }
  | some s => { ss := ss, out := s.rxBytes, err := none }

/-- The method `StatsMap.TxBytes`. -/
def TxBytes (ss : StatsMap) (iface : String) (bytes : Nat) : Reply Nat :=
  match ss.lookup iface with
  | none => { ss := ss, out := bytes, err := some (error.noSuchInterface iface) }
  | some s => { ss := ss, out := s.txBytes, err := none }

/-- The method `StatsMap.RxRate`. -/
def RxRate (ss : StatsMap) (iface : String) (Bps : Rate) : Reply Rate :=
  match ss.lookup iface with
  | none => { ss := ss, out := Bps, err := some (error.noSuchInterface iface) }
  | some s => { ss := ss, out := s.rxRate, err := none }

/-- The method `StatsMap.TxRate`. -/
def TxRate (ss : StatsMap) (iface : String) (Bps : Rate) : Reply Rate :=
  match ss.lookup iface with
  | none => { ss := ss, out := Bps, err := some (error.noSuchInterface iface) }
  | some s => { ss := ss, out := s.txRate, err := none }

/-- The entry that one loop iteration stores for the snapshot row `v`, when
the lookup `ss[iface]` gave `old` (`none` when the key is absent). -/
def updated (old : Option stats) (v : snapshot) : stats :=
  { rxBytes := v.rxBytes, txBytes := v.txBytes,
    rxRate := rate v.rxBytes (old.getD stats.zero).rxBytes,
    txRate := rate v.txBytes (old.getD stats.zero).txBytes }

/-! ## Sample inputs -/

/-- A first snapshot: `eth0` with rx 1000 and tx 2000. -/
def snapFirst : SnapMap := AList.insert "eth0" { rxBytes := 1000, txBytes := 2000 } ∅

/-- The snapshot one interval later: `eth0` with rx 3000 and tx 2200. -/
def snapSecond : SnapMap := AList.insert "eth0" { rxBytes := 3000, txBytes := 2200 } ∅

/-- A snapshot in which `eth0` no longer appears, only `lo`. -/
def snapWithoutEth0 : SnapMap := AList.insert "lo" { rxBytes := 5, txBytes := 5 } ∅

/-- A state whose rx counter of `eth0` is `2 ^ 53 + 1`. -/
def stateAbove53 : StatsMap :=
  AList.insert "eth0" { rxBytes := 9007199254740993, txBytes := 0, rxRate := 0, txRate := 0 } ∅

/-- A snapshot whose rx counter of `eth0` is `2 ^ 53`, one less than in `stateAbove53`. -/
def snapAt53 : SnapMap := AList.insert "eth0" { rxBytes := 9007199254740992, txBytes := 0 } ∅

/-- A state whose rx counter of `eth0` is the largest `uint64`, `2 ^ 64 - 1`. -/
def stateBeforeWrap : StatsMap :=
  AList.insert "eth0"
    { rxBytes := 18446744073709551615, txBytes := 0, rxRate := 0, txRate := 0 } ∅

/-- The snapshot after the rx counter of `eth0` has wrapped around to 0. -/
def snapAfterWrap : SnapMap := AList.insert "eth0" { rxBytes := 0, txBytes := 0 } ∅

/-! ## Panics and system errors -/

/-- An error number of the operating system, `syscall.Errno`. -/
abbrev Errno := Nat

/-- The constant `syscall.EWOULDBLOCK` (equal to `EAGAIN` on Linux). -/
def EWOULDBLOCK : Errno := 11

/-- The two kinds of `*strconv.NumError` that `strconv.ParseUint` returns. -/
inductive NumError where
  /-- The value `strconv.ErrSyntax`. -/
  | badSyntax
  /-- The value `strconv.ErrRange`. -/
  | outOfRange
deriving DecidableEq, Repr

/-- The value a goroutine panics with. -/
inductive PanicValue where
  /-- The call `panic(err)` with an error of the operating system. -/
  | sys (e : Errno)
  /-- The runtime error "index out of range [i] with length n". -/
  | index (i n : Nat)
  /-- The call `panic(err)` with the error of `strconv.ParseUint` on a token. -/
  | parse (tok : String) (e : NumError)
  /-- The call `panic(err)` with an error of `encoding/json`. -/
  | json (msg : String)
deriving DecidableEq, Repr

/-- A computation that either returns or panics. -/
abbrev Result (α : Type) := Except PanicValue α

deriving instance DecidableEq for Except

/-! ## The leader lock -/

/-- The function `lock(dir)`, as a function of what its three system calls
answer: `mkdirErr` is the error of `os.MkdirAll` (`none` is `nil`), `openRes`
the descriptor or error of `syscall.Open`, and `flockErr fd` the error of
`syscall.Flock(fd, LOCK_EX|LOCK_NB)`. -/
def lock (mkdirErr : Option Errno) (openRes : Except Errno Int)
    (flockErr : Int → Option Errno) : Result Bool :=
  match mkdirErr with
  | some err => Except.error (PanicValue.sys err)
  | none =>
    match openRes with
    | Except.error err => Except.error (PanicValue.sys err)
    | Except.ok f =>
      match flockErr f with
      | none => Except.ok true
      | some err =>
        if err = EWOULDBLOCK then Except.ok false
        else Except.error (PanicValue.sys err)

/-! ## The snapshot reader -/

/-- The predicate `unicode.IsSpace`, which `strings.Fields` splits on. -/
def isSpace (c : Char) : Bool :=
  let n := c.toNat
  n = 9 || n = 10 || n = 11 || n = 12 || n = 13 || n = 32 || n = 0x85 || n = 0xA0 ||
  n = 0x1680 || (0x2000 ≤ n && n ≤ 0x200a) || n = 0x2028 || n = 0x2029 || n = 0x202f ||
  n = 0x205f || n = 0x3000

/-- The scan of `strings.Fields`: `cur` holds, reversed, the characters of the
field being read. -/
def fieldsFrom : List Char → List Char → List String
  | [], cur => if cur.isEmpty then [] else [String.mk cur.reverse]
  | c :: cs, cur =>
    if isSpace c then
      if cur.isEmpty then fieldsFrom cs [] else String.mk cur.reverse :: fieldsFrom cs []
    else fieldsFrom cs (c :: cur)

/-- The function `strings.Fields`: the maximal runs of non-space characters. -/
def Fields (s : String) : List String := fieldsFrom s.data []

/-- The function `strings.TrimSuffix`. -/
def TrimSuffix (s suffix : String) : String :=
  if suffix.data.isSuffixOf s.data then
    String.mk (s.data.take (s.data.length - suffix.data.length))
  else s

/-- The largest `uint64`. -/
def maxUint64 : Nat := 2 ^ 64 - 1

/-- The cutoff of `strconv.ParseUint` for base 10: the least `n` with
`n * 10 > maxUint64`. -/
def cutoff : Nat := maxUint64 / 10 + 1

/-- The digit loop of `strconv.ParseUint(s, 10, 64)` with the accumulator `n`.
A byte that is not a decimal digit is either a letter, whose value is at
least the base, or falls in the default case; both are syntax errors. -/
def parseLoop : List Char → Nat → Except NumError Nat
  | [], n => Except.ok n
  | c :: cs, n =>
    if 48 ≤ c.toNat ∧ c.toNat ≤ 57 then
      let d := c.toNat - 48
      if cutoff ≤ n then Except.error NumError.outOfRange
      else
        let n10 := n * 10 % 2 ^ 64
        let n1 := (n10 + d) % 2 ^ 64
        if n1 < n10 ∨ maxUint64 < n1 then Except.error NumError.outOfRange
        else parseLoop cs n1
    else Except.error NumError.badSyntax

/-- The call `strconv.ParseUint(s, 10, 64)`. -/
def ParseUint (s : String) : Except NumError Nat :=
  if s.data = [] then Except.error NumError.badSyntax else parseLoop s.data 0

/-- The index expression `tokens[i]`, which panics when `i` is out of range. -/
def index (tokens : List String) (i : Nat) : Result String :=
  match tokens.get? i with
  | some t => Except.ok t
  | none => Except.error (PanicValue.index i tokens.length)

/-- The call `strconv.ParseUint(tok, 10, 64)` followed by `panic(err)` on an error. -/
def mustParseUint (tok : String) : Result Nat :=
  match ParseUint tok with
  | Except.ok n => Except.ok n
  | Except.error e => Except.error (PanicValue.parse tok e)

/-- The body of the scanning loop of `getSnapshot` for one line after the
header: the interface name and the snapshot stored for it. -/
def parseRow (line : String) : Result (String × snapshot) := do
  let tokens := Fields line
  let t0 ← index tokens iIface
  let iface := TrimSuffix t0 ":"
  let t1 ← index tokens iRxBytes
  let rxBytes ← mustParseUint t1
  let t9 ← index tokens iTxBytes
  let txBytes ← mustParseUint t9
  pure (iface, { rxBytes := rxBytes, txBytes := txBytes })

/-- The loop `for s.Scan()` of `getSnapshot`: `i` counts the lines read so
far and `snap` is the map built so far. -/
def scanLoop : List String → Nat → SnapMap → Result SnapMap
  | [], _, snap => Except.ok snap
  | line :: rest, i, snap =>
    if i + 1 ≤ 2 then scanLoop rest (i + 1) snap
    else
      match parseRow line with
      | Except.error p => Except.error p
      | Except.ok (iface, v) => scanLoop rest (i + 1) (snap.insert iface v)

/-- The function `getSnapshot`, as a function of the error of `os.Open`, of
the lines the scanner delivers and of the error `s.Err()` it ends with. -/
def getSnapshot (openErr : Option Errno) (lines : List String) (scanErr : Option Errno) :
    Result SnapMap :=
  match openErr with
  | some err => Except.error (PanicValue.sys err)
  | none =>
    match scanLoop lines 0 ∅ with
    | Except.error p => Except.error p
    | Except.ok snap =>
      match scanErr with
      | some err => Except.error (PanicValue.sys err)
      | none => Except.ok snap

/-! ### The layout of a row, in the words of the specification -/

/-- The whitespace-separated field at position `i` of a line (empty when the
line has no such field). -/
def field (line : String) (i : Nat) : String := (Fields line).getD i ""

/-- The value of a string of decimal digits. -/
def decimalValue (s : String) : Nat :=
  s.data.foldl (fun n c => n * 10 + (c.toNat - 48)) 0

/-- A base-10 unsigned integer that fits in 64 bits: a non-empty string of
the digits `0` to `9` whose value is below `2 ^ 64`. -/
def IsUint64Decimal (s : String) : Prop :=
  s.data ≠ [] ∧ (∀ c ∈ s.data, 48 ≤ c.toNat ∧ c.toNat ≤ 57) ∧ decimalValue s < 2 ^ 64

instance (s : String) : Decidable (IsUint64Decimal s) := by
  unfold IsUint64Decimal
  infer_instance

/-- A row with at least 10 fields and 64-bit unsigned decimal integers at the
positions 1 and 9. -/
def WellFormedRow (line : String) : Prop :=
  10 ≤ (Fields line).length ∧ IsUint64Decimal (field line iRxBytes) ∧
    IsUint64Decimal (field line iTxBytes)

instance (line : String) : Decidable (WellFormedRow line) := by
  unfold WellFormedRow
  infer_instance

/-- A row that lacks an expected numeric field: it is blank, has fewer than 10
fields, or its token at position 1 or 9 is not a 64-bit unsigned decimal integer. -/
def Malformed (line : String) : Prop :=
  Fields line = [] ∨ (Fields line).length < 10 ∨ ¬ IsUint64Decimal (field line iRxBytes) ∨
    ¬ IsUint64Decimal (field line iTxBytes)

instance (line : String) : Decidable (Malformed line) := by
  unfold Malformed
  infer_instance

/-- The interface name of a row: field 0 with a trailing `:` removed. -/
def ifaceName (line : String) : String := TrimSuffix (field line iIface) ":"

/-- The snapshot a row describes: field 1 and field 9, read as decimal numbers. -/
def rowSnapshot (line : String) : snapshot :=
  { rxBytes := decimalValue (field line iRxBytes), txBytes := decimalValue (field line iTxBytes) }

/-- The table of the comment at the head of `main.go`: two header lines and
the rows of three interfaces. -/
def procNetDevSample : List String :=
  ["Inter-|   Receive                                                |  Transmit",
   " face |bytes    packets errs drop fifo frame compressed multicast|bytes    packets errs drop fifo colls carrier compressed",
   "virbr0-nic:       0       0    0    0    0     0          0         0        0       0    0    0    0     0       0          0",
   "virbr0:       0       0    0    0    0     0          0         0        0       0    0    0    0     0       0          0",
   "wlp2s0: 39631108358 27753100    0    0    0     0          0         0 2365593650 14270663    0    0    0     0       0          0"]

/-- A table whose only row stops after the received-bytes column. -/
def procNetDevTruncated : List String :=
  ["Inter-|   Receive  |  Transmit", " face |bytes |bytes", "eth0: 12 7"]

/-! ## Rendering a rate -/

/-- The verb `%f` applied to the number `n / d`: six decimals, rounded to
nearest, ties to even; `d` is positive. -/
def formatF (n : Int) (d : Nat) : String :=
  let a := n.natAbs * 10 ^ 6
  let q := a / d
  let r := a % d
  let m := if d < 2 * r ∨ (2 * r = d ∧ q % 2 = 1) then q + 1 else q
  let frac := Nat.toDigits 10 (m % 10 ^ 6)
  let sign := if n < 0 then "-" else ""
  sign ++ String.mk (Nat.toDigits 10 (m / 10 ^ 6)) ++ "." ++
    String.mk (List.replicate (6 - frac.length) (Char.ofNat 48) ++ frac)

/-- The method `Rate.String`.  The float `f` is kept as the fraction
`n / d`: dividing by `1024.0` is exact in binary64, so `d` becomes `d * 1024`. -/
def Rate.String (r : Rate) : String :=
  let n : Int := r
  let d0 : Nat := 1
  let s0 := "B/s"
  let (d1, s1) := if 1024 * (d0 : Int) < n then (d0 * 1024, "KB/s") else (d0, s0)
  let (d2, s2) := if 1024 * (d1 : Int) < n then (d1 * 1024, "MB/s") else (d1, s1)
  let (d3, s3) := if 1024 * (d2 : Int) < n then (d2 * 1024, "GB/s") else (d2, s2)
  formatF n d3 ++ s3

/-! ## Processes -/

/-- A diagnostic written to standard error. -/
inductive Diag where
  /-- The usage line `usage: ... [--iface IFACE] type`. -/
  | usage
  /-- The message of `log.Fatalf("dialing: ...", err)`. -/
  | dialing (e : error)
  /-- The line `error: ...` printed for a failed query. -/
  | queryError (e : error)
  /-- The message of `log.Fatalf("unknown method: %v", method)`. -/
  | unknownMethod (method : String)
deriving DecidableEq, Repr

/-- How a process ends. -/
inductive Termination where
  /-- The function `main` (or `i3status`) returned: exit status 0. -/
  | returned
  /-- A call of `os.Exit(code)`, directly or through `log.Fatalf` (code 1). -/
  | exited (code : Nat)
  /-- An unrecovered panic. -/
  | panicked (p : PanicValue)
  /-- The process became the daemon; `runDaemon` never returns. -/
  | daemon
  /-- The process waits forever in a call that does not return. -/
  | blocked
deriving DecidableEq, Repr

/-- The exit status the parent process observes (`none` while the process
keeps running); the Go runtime exits with status 2 on a panic. -/
def Termination.exitCode : Termination → Option Nat
  | Termination.returned => some 0
  | Termination.exited code => some code
  | Termination.panicked _ => some 2
  | Termination.daemon => none
  | Termination.blocked => none

/-- What a process wrote and how it ended: `stdout` holds one text per call
of `fmt.Printf` or `fmt.Println` (without the newline that `Println` adds),
`stderr` one diagnostic per message. -/
structure Run where
  stdout : List String
  stderr : List Diag
  exit : Termination
deriving DecidableEq, Repr

/-- What `client.Call` answers: for the rate methods and for the byte
methods, given the method name and the interface. -/
structure Service where
  rate : String → String → Except error Rate
  bytes : String → String → Except error Nat

/-- The service that `rpc.Register(ss)` exposes for the daemon state `ss`:
the four exported methods of `StatsMap`. -/
def serve (ss : StatsMap) : Service where
  rate := fun method iface =>
    if method = "StatsMap.RxRate" then
      match (RxRate ss iface 0).err with
      | some e => Except.error e
      | none => Except.ok (RxRate ss iface 0).out
    else if method = "StatsMap.TxRate" then
      match (TxRate ss iface 0).err with
      | some e => Except.error e
      | none => Except.ok (TxRate ss iface 0).out
    else Except.error (error.transport "rpc: can't find method")
  bytes := fun method iface =>
    if method = "StatsMap.RxBytes" then
      match (RxBytes ss iface 0).err with
      | some e => Except.error e
      | none => Except.ok (RxBytes ss iface 0).out
    else if method = "StatsMap.TxBytes" then
      match (TxBytes ss iface 0).err with
      | some e => Except.error e
      | none => Except.ok (TxBytes ss iface 0).out
    else Except.error (error.transport "rpc: can't find method")

/-! ## The command-line client: `main` -/

/-- The function `main`, after `flag.Parse`: `locked` is what `lock(runDir)`
returned, `flagIface` the value of `--iface`, `args` the positional arguments
`flag.Args()`, `dial` the error of `rpc.DialHTTP` (`none` is `nil`) and `svc`
what the daemon answers to `client.Call`. -/
def main (locked : Bool) (flagIface : String) (args : List String) (dial : Option error)
    (svc : Service) : Run :=
  if locked then
    { stdout := ["no lock found - daemonising\n"], stderr := [], exit := Termination.daemon }
  else
    let banner := "found dumbw daemon - running as client\n"
    match args with
    | [method] =>
      match dial with
      | some err =>
        { stdout := [banner], stderr := [Diag.dialing err], exit := Termination.exited 1 }
      | none =>
        let m := "StatsMap." ++ method
        if method = "TxRate" ∨ method = "RxRate" then
          match svc.rate m flagIface with
          | Except.error err =>
            { stdout := [banner], stderr := [Diag.queryError err], exit := Termination.returned }
          | Except.ok r =>
            { stdout := [banner, flagIface ++ " " ++ method ++ " " ++ Rate.String r ++ "\n"],
              stderr := [], exit := Termination.returned }
        else if method = "TxBytes" ∨ method = "RxBytes" then
          match svc.bytes m flagIface with
          | Except.error err =>
            { stdout := [banner], stderr := [Diag.queryError err], exit := Termination.returned }
          | Except.ok b =>
            { stdout := [banner, flagIface ++ " " ++ method ++ " " ++ toString b ++ "\n"],
              stderr := [], exit := Termination.returned }
        else
          { stdout := [banner], stderr := [Diag.unknownMethod method],
            exit := Termination.exited 1 }
    | _ => { stdout := [banner], stderr := [Diag.usage], exit := Termination.exited 1 }

/-! ## The stream injector: `i3status` -/

/-- The constant `defaultInterface`. -/
def defaultInterface : String := "wlp2s0"

/-- The struct `item`. -/
structure item where
  Name : String
  FullText : String
  MinWidth : String
  Align : String
deriving DecidableEq, Repr

/-- An element of the `[]interface{}` that is encoded: a pointer to an `item`
built by the injector, or a value that `json.Unmarshal` decoded. -/
inductive Elem (V : Type) where
  | itemPtr (i : item)
  | decoded (v : V)
deriving DecidableEq, Repr

/-- The parts of `encoding/json` that are taken as given, over the type `V`
of decoded values: `Unmarshal` of a text into a `[]interface{}`, the encoding
of one decoded value, and the encoding of a Go string as a JSON string. -/
structure Codec (V : Type) where
  Unmarshal : String → Except String (List V)
  encodeValue : V → String
  encodeString : String → String

/-- The encoding of a `*item` by `json.Marshal`: an object with the keys of
the struct tags, the fields tagged `omitempty` being left out when empty. -/
def encodeItem {V : Type} (J : Codec V) (i : item) : String :=
  "\x7b\"name\":" ++ J.encodeString i.Name ++ ",\"full_text\":" ++ J.encodeString i.FullText ++
    (if i.MinWidth = "" then "" else ",\"min_width\":" ++ J.encodeString i.MinWidth) ++
    (if i.Align = "" then "" else ",\"align\":" ++ J.encodeString i.Align) ++ "\x7d"

/-- The encoding of one element of the list. -/
def encodeElem {V : Type} (J : Codec V) : Elem V → String
  | Elem.itemPtr i => encodeItem J i
  | Elem.decoded v => J.encodeValue v

/-- The call `json.Marshal(list)` on a non-nil `[]interface{}`: the encodings
of the elements, separated by commas, in brackets.  It returns no error on
elements of these two kinds. -/
def Marshal {V : Type} (J : Codec V) (list : List (Elem V)) : Except String String :=
  Except.ok ("[" ++ ",".intercalate (list.map (encodeElem J)) ++ "]")

/-- How a client connects to the socket: with `rpc.Dial`, which speaks the
rpc protocol at once, or with `rpc.DialHTTP`, which first asks an HTTP server
to switch to it. -/
inductive Dialer where
  | Dial
  | DialHTTP
deriving DecidableEq, Repr

/-- What a call of `client.Call` for a rate does: it returns a rate or an
error, or it never returns. -/
inductive CallResult where
  | returned (r : Except error Rate)
  | blocked
deriving DecidableEq, Repr

/-- A server listening on the socket, as its clients see it: what the call
number `k` of a client that connected in the given way does, for a method
name and an interface. -/
abbrev Listener := Dialer → Nat → String → String → CallResult

/-- The daemon of this repository as a listener, `ss k` being its state at
the time of call `k`.  The function `serve` of `main.go` offers rpc inside
HTTP only (`rpc.HandleHTTP`, `http.Serve`): a client connected with
`rpc.DialHTTP` is answered from the state map; a client connected with plain
`rpc.Dial` sends its request to an HTTP server that keeps waiting for an HTTP
request and never answers, so its call does not return. -/
def daemonListener (ss : Nat → StatsMap) : Listener := fun d k method iface =>
  match d with
  | Dialer.DialHTTP => CallResult.returned ((serve (ss k)).rate method iface)
  | Dialer.Dial => CallResult.blocked

/-- The outcome of the loop body of `i3status` for one line. -/
inductive LineResult where
  /-- The line handed to `fmt.Println`. -/
  | printed (line : String)
  /-- The call `panic(err)` after a failed `Unmarshal` or `Marshal`. -/
  | panicked (msg : String)
  /-- A call of `client.Call` that does not return. -/
  | blocked
deriving DecidableEq, Repr

/-- The function `get`: the text of one injected item (`none` when
`client.Call` does not return). -/
def get (call : String → String → CallResult) (iface rate : String) : Option String :=
  let method := "StatsMap." ++ rate ++ "Rate"
  match call method iface with
  | CallResult.blocked => none
  | CallResult.returned (Except.error _) => some (rate ++ ": N/A")
  | CallResult.returned (Except.ok r) => some (rate ++ ": " ++ Rate.String r)

/-- The text of an injected item for a call that returned: the placeholder
after an error, the rendered rate otherwise. -/
def rateText (rate : String) (r : Except error Rate) : String :=
  match r with
  | Except.error _ => rate ++ ": N/A"
  | Except.ok v => rate ++ ": " ++ Rate.String v

/-- The test `strings.HasPrefix(line, ",")` and the slice `line[1:]`: the
framing of a line and the text that is decoded. -/
def splitComma (line : String) : String × String :=
  match line.data with
  | c :: rest => if c.toNat = 44 then (",", String.mk rest) else ("", line)
  | [] => ("", line)

/-- The body of the loop `for s.Scan()` of `i3status` for one line. -/
def handleLine {V : Type} (J : Codec V) (call : String → String → CallResult)
    (iface line : String) : LineResult :=
  match J.Unmarshal (splitComma line).2 with
  | Except.error e => LineResult.panicked e
  | Except.ok list =>
    match get call iface "Rx" with
    | none => LineResult.blocked
    | some rxText =>
      match get call iface "Tx" with
      | none => LineResult.blocked
      | some txText =>
        let rxr : item :=
          { Name := iface ++ "-rxrate", FullText := rxText, MinWidth := "", Align := "" }
        let txr : item :=
          { Name := iface ++ "-txrate", FullText := txText, MinWidth := "", Align := "" }
        let l : List (Elem V) := [Elem.itemPtr rxr, Elem.itemPtr txr]
        match Marshal J (l ++ list.map Elem.decoded) with
        | Except.error e => LineResult.panicked e
        | Except.ok b => LineResult.printed ((splitComma line).1 ++ b)

/-- The loop `for s.Scan()` of `i3status`: `k` counts the lines handled so
far and `out` is what has been printed so far. -/
def i3statusLoop {V : Type} (J : Codec V) (call : Nat → String → String → CallResult)
    (iface : String) : List String → Nat → List String → Run
  | [], _, out => { stdout := out, stderr := [], exit := Termination.returned }
  | line :: rest, k, out =>
    match handleLine J (call k) iface line with
    | LineResult.panicked e =>
      { stdout := out, stderr := [], exit := Termination.panicked (PanicValue.json e) }
    | LineResult.blocked => { stdout := out, stderr := [], exit := Termination.blocked }
    | LineResult.printed o => i3statusLoop J call iface rest (k + 1) (out ++ [o])

/-- The interface the injector asks for: `os.Args[1]` when it is given,
`defaultInterface` otherwise. -/
def ifaceArg (args : List String) : String :=
  if 1 < args.length then args.getD 1 "" else defaultInterface

/-- The function `i3status`.  `args` is `os.Args`; `sock` is what listens
on the socket, or the error of `rpc.Dial` when nothing does; `text1` and
`text2` are what `s.Text()` gives after the first and the second call of
`s.Scan()`; `lines` are the tokens of the calls of `s.Scan()` in the loop, up
to the first call that returns false.  The scanner returns false at the end
of standard input and at a line that does not fit its buffer of 64 KiB;
`s.Err()` is never consulted, so the loop simply ends in both cases. -/
def i3status {V : Type} (J : Codec V) (args : List String) (sock : Except error Listener)
    (text1 text2 : String) (lines : List String) : Run :=
  let iface := ifaceArg args
  match sock with
  | Except.error err =>
    { stdout := [], stderr := [Diag.dialing err], exit := Termination.exited 1 }
  | Except.ok srv => i3statusLoop J (srv Dialer.Dial) iface lines 0 [text1, text2]

/-- Whether the loop of `i3status`, started at line number `k`, prints a
line for each of the given lines, that is, neither panics nor blocks on any
of them. -/
def allPrinted {V : Type} (J : Codec V) (call : Nat → String → String → CallResult)
    (iface : String) : List String → Nat → Bool
  | [], _ => true
  | line :: rest, k =>
    match handleLine J (call k) iface line with
    | LineResult.panicked _ => false
    | LineResult.blocked => false
    | LineResult.printed _ => allPrinted J call iface rest (k + 1)

/-- A small codec for examples: it decodes `[]` to the empty list and `[1]`
to the one-element list, prints a decoded value as it was read, and quotes a
string without escaping. -/
def sampleCodec : Codec String where
  Unmarshal := fun s =>
    if s = "[]" then Except.ok []
    else if s = "[1]" then Except.ok ["1"]
    else Except.error "invalid character"
  encodeValue := fun v => v
  encodeString := fun s => "\"" ++ s ++ "\""

/-- A listener that answers a plain rpc client: `RxRate` with "no such
interface", every other method with 2000 bytes per second. -/
def halfListener : Listener := fun _ _ method iface =>
  if method = "StatsMap.RxRate" then
    CallResult.returned (Except.error (error.noSuchInterface iface))
  else CallResult.returned (Except.ok 2000)

/-- The array lines of a status stream: a first array and a continuation. -/
def sampleLines : List String := ["[1]", ",[1]"]

/-! ## Lemmas on the binary64 model -/

theorem excessBits_small (fuel n : Nat) (h : n < 2 ^ 53) : excessBits fuel n = 0 := by
  cases fuel with
  | zero => rfl
  | succ f => simp only [excessBits, h, if_true]

theorem excessBits_spec (fuel : Nat) : ∀ n : Nat, n < 2 ^ (53 + fuel) → 2 ^ 53 ≤ n →
    2 ^ (52 + excessBits fuel n) ≤ n ∧ n < 2 ^ (53 + excessBits fuel n) ∧ 1 ≤ excessBits fuel n := by
  induction fuel with
  | zero => intro n h1 h2; simp at h1; omega
  | succ f ih =>
    intro n h1 h2
    have hn : ¬ n < 2 ^ 53 := by omega
    simp only [excessBits, hn, if_false]
    by_cases hh : n / 2 < 2 ^ 53
    · rw [excessBits_small f _ hh]
      refine ⟨?_, ?_, le_refl _⟩
      · simpa using h2
      · have : (2:Nat) ^ (53 + (0 + 1)) = 2 ^ 53 * 2 := by rw [pow_succ]
        omega
    · have hlt : n / 2 < 2 ^ (53 + f) := by
        have : (2:Nat) ^ (53 + (f + 1)) = 2 ^ (53 + f) * 2 := by rw [← Nat.add_assoc, pow_succ]
        omega
      obtain ⟨a, b, _⟩ := ih (n / 2) hlt (by omega)
      refine ⟨?_, ?_, by omega⟩
      · have : (2:Nat) ^ (52 + (excessBits f (n / 2) + 1)) = 2 ^ (52 + excessBits f (n / 2)) * 2 := by
          rw [← Nat.add_assoc, pow_succ]
        omega
      · have : (2:Nat) ^ (53 + (excessBits f (n / 2) + 1)) = 2 ^ (53 + excessBits f (n / 2)) * 2 := by
          rw [← Nat.add_assoc, pow_succ]
        omega

theorem lt_two_pow_add_self (n : Nat) : n < 2 ^ (53 + n) :=
  lt_of_lt_of_le (Nat.lt_two_pow n) (Nat.pow_le_pow_right (by norm_num) (by omega))


theorem roundToEven_lower (n e : Nat) : n / 2 ^ e * 2 ^ e ≤ roundToEven n e := by
  unfold roundToEven
  simp only
  split_ifs <;> nlinarith [Nat.zero_le (2 ^ e)]

theorem roundToEven_upper (n e : Nat) : roundToEven n e ≤ (n / 2 ^ e + 1) * 2 ^ e := by
  unfold roundToEven
  simp only
  split_ifs <;> nlinarith [Nat.zero_le (2 ^ e)]

theorem roundToEven_mono (e a b : Nat) (h : a ≤ b) : roundToEven a e ≤ roundToEven b e := by
  have hp : 0 < 2 ^ e := Nat.two_pow_pos _
  have hq : a / 2 ^ e ≤ b / 2 ^ e := Nat.div_le_div_right h
  rcases Nat.lt_or_ge (a / 2 ^ e) (b / 2 ^ e) with hlt | hge
  · calc roundToEven a e ≤ (a / 2 ^ e + 1) * 2 ^ e := roundToEven_upper a e
      _ ≤ b / 2 ^ e * 2 ^ e := Nat.mul_le_mul_right _ hlt
      _ ≤ roundToEven b e := roundToEven_lower b e
  · have heq : a / 2 ^ e = b / 2 ^ e := le_antisymm hq hge
    have hr : a % 2 ^ e ≤ b % 2 ^ e := by
      have ha := Nat.div_add_mod a (2 ^ e)
      have hb := Nat.div_add_mod b (2 ^ e)
      rw [heq] at ha
      omega
    unfold roundToEven
    simp only [heq]
    split_ifs <;> first | omega | nlinarith [Nat.zero_le (2 ^ e)]

theorem float64OfNat_small (n : Nat) (h : n ≤ 2 ^ 53) : float64OfNat n = n := by
  unfold float64OfNat
  rcases Nat.lt_or_ge n (2 ^ 53) with hlt | hge
  · rw [excessBits_small n n hlt]
    simp [roundToEven, Nat.mod_one]
  · have hn : n = 2 ^ 53 := le_antisymm h hge
    subst hn
    decide

theorem float64OfNat_mono (a b : Nat) (h : a ≤ b) : float64OfNat a ≤ float64OfNat b := by
  rcases Nat.lt_or_ge b (2 ^ 53) with hb | hb
  · rw [float64OfNat_small a (by omega), float64OfNat_small b (by omega)]
    exact h
  · obtain ⟨hb1, hb2, hb3⟩ := excessBits_spec b b (lt_two_pow_add_self b) hb
    have hRb : 2 ^ (52 + excessBits b b) ≤ float64OfNat b := by
      have hl := roundToEven_lower b (excessBits b b)
      have : 2 ^ 52 ≤ b / 2 ^ excessBits b b := by
        rw [Nat.le_div_iff_mul_le (Nat.two_pow_pos _), ← pow_add]
        exact hb1
      calc 2 ^ (52 + excessBits b b) = 2 ^ 52 * 2 ^ excessBits b b := pow_add _ _ _
        _ ≤ b / 2 ^ excessBits b b * 2 ^ excessBits b b := Nat.mul_le_mul_right _ this
        _ ≤ float64OfNat b := hl
    rcases Nat.lt_or_ge a (2 ^ 53) with ha | ha
    · rw [float64OfNat_small a (by omega)]
      have : (2:Nat) ^ 53 ≤ 2 ^ (52 + excessBits b b) := Nat.pow_le_pow_right (by norm_num) (by omega)
      omega
    · obtain ⟨ha1, ha2, ha3⟩ := excessBits_spec a a (lt_two_pow_add_self a) ha
      rcases Nat.lt_or_ge (excessBits a a) (excessBits b b) with he | he
      · have hRa : float64OfNat a ≤ 2 ^ (53 + excessBits a a) := by
          have hu := roundToEven_upper a (excessBits a a)
          have : a / 2 ^ excessBits a a + 1 ≤ 2 ^ 53 := by
            have : a / 2 ^ excessBits a a < 2 ^ 53 := by
              rw [Nat.div_lt_iff_lt_mul (Nat.two_pow_pos _), ← pow_add]
              exact ha2
            omega
          calc float64OfNat a ≤ (a / 2 ^ excessBits a a + 1) * 2 ^ excessBits a a := hu
            _ ≤ 2 ^ 53 * 2 ^ excessBits a a := Nat.mul_le_mul_right _ this
            _ = 2 ^ (53 + excessBits a a) := (pow_add _ _ _).symm
        have : (2:Nat) ^ (53 + excessBits a a) ≤ 2 ^ (52 + excessBits b b) :=
          Nat.pow_le_pow_right (by norm_num) (by omega)
        omega
      · have heq : excessBits a a = excessBits b b := by
          by_contra hne
          have hlt : excessBits b b < excessBits a a := by omega
          have : (2:Nat) ^ (53 + excessBits b b) ≤ 2 ^ (52 + excessBits a a) :=
            Nat.pow_le_pow_right (by norm_num) (by omega)
          omega
        unfold float64OfNat
        rw [heq]
        exact roundToEven_mono _ a b h


/-! ## Lemmas on the rate formula -/

theorem intervalSeconds_eq : intervalSeconds = 1 := by decide

theorem rate_eq (new old : Nat) :
    rate new old = roundF64 ((float64OfNat new : Int) - (float64OfNat old : Int)) := by
  simp [rate, float64Sub, intervalSeconds_eq]

theorem roundF64_nonneg (x : Int) (h : 0 ≤ x) : 0 ≤ roundF64 x := by
  unfold roundF64
  rw [if_neg (by omega)]
  exact Int.ofNat_nonneg _

theorem roundF64_nonpos (x : Int) (h : x ≤ 0) : roundF64 x ≤ 0 := by
  unfold roundF64
  by_cases hx : x < 0
  · rw [if_pos hx]
    have := Int.ofNat_nonneg (float64OfNat x.natAbs)
    omega
  · rw [if_neg hx]
    have h0 : x = 0 := by omega
    subst h0
    decide

theorem roundF64_exact (x : Int) (h : x.natAbs ≤ 2 ^ 53) : roundF64 x = x := by
  unfold roundF64
  by_cases hx : x < 0
  · rw [if_pos hx, float64OfNat_small _ h]
    omega
  · rw [if_neg hx, float64OfNat_small _ (by omega)]
    omega

theorem rate_nonneg (new old : Nat) (h : old ≤ new) : 0 ≤ rate new old := by
  rw [rate_eq]
  apply roundF64_nonneg
  have := float64OfNat_mono old new h
  omega

theorem rate_nonpos (new old : Nat) (h : new ≤ old) : rate new old ≤ 0 := by
  rw [rate_eq]
  apply roundF64_nonpos
  have := float64OfNat_mono new old h
  omega

theorem rate_exact (new old : Nat) (hn : new ≤ 2 ^ 53) (ho : old ≤ 2 ^ 53) :
    rate new old = (new : Int) - (old : Int) := by
  rw [rate_eq, float64OfNat_small new hn, float64OfNat_small old ho]
  apply roundF64_exact
  omega

/-! ## Lemmas on the sampling loop -/

theorem sampleEntry_eq (ss : StatsMap) (iface : String) (v : snapshot) :
    sampleEntry ss iface v = ss.insert iface (updated (ss.lookup iface) v) := rfl

theorem foldl_sampleEntry_lookup (l : List (Sigma fun _ : String => snapshot)) :
    ∀ (ss : StatsMap), l.NodupKeys → ∀ k : String,
      (l.foldl (fun acc e => sampleEntry acc e.1 e.2) ss).lookup k =
        match l.dlookup k with
        | some v => some (updated (ss.lookup k) v)
        | none => ss.lookup k := by
  induction l with
  | nil => intro ss _ k; simp
  | cons hd tl ih =>
    intro ss hnd k
    obtain ⟨k0, v0⟩ := hd
    have hnd2 := List.nodupKeys_cons.mp hnd
    rw [List.foldl_cons, ih _ hnd2.2 k]
    by_cases hk : k = k0
    · subst hk
      have hnone : tl.dlookup k = none := List.dlookup_eq_none.mpr hnd2.1
      simp [hnone, sampleEntry_eq, AList.lookup_insert]
    · rw [List.dlookup_cons_ne _ _ hk]
      simp [sampleEntry_eq, AList.lookup_insert_ne hk]

theorem sampleTick_lookup (ss : StatsMap) (snap : SnapMap) (k : String) :
    (sampleTick ss snap).lookup k =
      match snap.lookup k with
      | some v => some (updated (ss.lookup k) v)
      | none => ss.lookup k :=
  foldl_sampleEntry_lookup snap.entries ss snap.nodupKeys k

theorem sampleTick_lookup_of_mem (ss : StatsMap) (snap : SnapMap) (k : String) (v : snapshot)
    (h : snap.lookup k = some v) :
    (sampleTick ss snap).lookup k = some (updated (ss.lookup k) v) := by
  rw [sampleTick_lookup, h]

theorem sampleTick_lookup_of_not_mem (ss : StatsMap) (snap : SnapMap) (k : String)
    (h : snap.lookup k = none) :
    (sampleTick ss snap).lookup k = ss.lookup k := by
  rw [sampleTick_lookup, h]

theorem mem_sortedKeys (m : StatsMap) (k : String) : k ∈ sortedKeys m ↔ k ∈ m.keys :=
  (List.perm_insertionSort _ m.keys).mem_iff

theorem mem_keys_iff_lookup (m : StatsMap) (k : String) :
    k ∈ m.keys ↔ ∃ s, m.lookup k = some s := by
  rw [← AList.mem_keys, ← AList.lookup_isSome, Option.isSome_iff_exists]

theorem not_mem_keys_iff_lookup (m : StatsMap) (k : String) :
    k ∉ m.keys ↔ m.lookup k = none := by
  rw [← AList.mem_keys, AList.lookup_eq_none]

theorem runDaemon_append (snaps : List SnapMap) (snap : SnapMap) :
    runDaemon (snaps ++ [snap]) = sampleTick (runDaemon snaps) snap := by
  simp [runDaemon, List.foldl_append]

theorem foldl_sampleTick_lookup_none (snaps : List SnapMap) (k : String)
    (h : ∀ snap ∈ snaps, k ∉ snap.keys) :
    ∀ ss : StatsMap, ss.lookup k = none → (snaps.foldl sampleTick ss).lookup k = none := by
  induction snaps with
  | nil => intro ss hs; simpa using hs
  | cons hd tl ih =>
    intro ss hs
    rw [List.foldl_cons]
    apply ih (fun s hs2 => h s (List.mem_cons_of_mem _ hs2))
    rw [sampleTick_lookup_of_not_mem]
    · exact hs
    · have := h hd (List.mem_cons_self _ _)
      rw [← AList.mem_keys] at this
      exact AList.lookup_eq_none.mpr this

theorem dumpStats_names (ss : StatsMap) : (dumpStats ss).map Prod.fst = sortedKeys ss := by
  simp [dumpStats, List.map_map, Function.comp_def]

theorem float64OfNat_pos (n : Nat) (h : 0 < n) : 0 < float64OfNat n := by
  have h1 : float64OfNat 1 = 1 := float64OfNat_small 1 (by norm_num)
  have h2 := float64OfNat_mono 1 n h
  omega

theorem roundF64_neg (x : Int) (h : x < 0) : roundF64 x < 0 := by
  unfold roundF64
  rw [if_pos h]
  have hp : 0 < float64OfNat x.natAbs := float64OfNat_pos _ (by omega)
  have : (0 : Int) < (float64OfNat x.natAbs : Int) := Int.ofNat_lt.mpr hp
  omega

theorem roundF64_pos (x : Int) (h : 0 < x) : 0 < roundF64 x := by
  unfold roundF64
  rw [if_neg (by omega)]
  have hp : 0 < float64OfNat x.toNat := float64OfNat_pos _ (by omega)
  exact Int.ofNat_lt.mpr hp

theorem roundF64_eq_zero_iff (x : Int) : roundF64 x = 0 ↔ x = 0 := by
  constructor
  · intro h
    by_contra hx
    rcases lt_or_gt_of_ne hx with hlt | hgt
    · have := roundF64_neg x hlt
      omega
    · have := roundF64_pos x hgt
      omega
  · rintro rfl
    decide

theorem rate_neg_of_lt (new old : Nat) (h : float64OfNat new < float64OfNat old) :
    rate new old < 0 := by
  rw [rate_eq]
  apply roundF64_neg
  have := Int.ofNat_lt.mpr h
  omega

theorem rate_pos_of_lt (new old : Nat) (h : float64OfNat old < float64OfNat new) :
    0 < rate new old := by
  rw [rate_eq]
  apply roundF64_pos
  have := Int.ofNat_lt.mpr h
  omega

theorem rate_eq_zero_iff (new old : Nat) :
    rate new old = 0 ↔ float64OfNat new = float64OfNat old := by
  rw [rate_eq, roundF64_eq_zero_iff]
  omega

theorem roundF64_of_representable (x : Int) (hd : float64OfNat x.natAbs = x.natAbs) :
    roundF64 x = x := by
  unfold roundF64
  by_cases hx : x < 0
  · rw [if_pos hx, hd]
    omega
  · rw [if_neg hx]
    have : x.toNat = x.natAbs := by omega
    rw [this, hd]
    omega

theorem rate_exact_of_representable (new old : Nat) (hn : float64OfNat new = new)
    (ho : float64OfNat old = old)
    (hd : float64OfNat ((new : Int) - (old : Int)).natAbs = ((new : Int) - (old : Int)).natAbs) :
    rate new old = (new : Int) - (old : Int) := by
  rw [rate_eq, hn, ho]
  exact roundF64_of_representable _ hd

/-! ## Lemmas on the snapshot reader -/

theorem le_foldl_decimal (cs : List Char) :
    ∀ n : Nat, n ≤ cs.foldl (fun n c => n * 10 + (c.toNat - 48)) n := by
  induction cs with
  | nil => intro n; exact le_refl _
  | cons c t ih =>
    intro n
    rw [List.foldl_cons]
    exact le_trans (by omega) (ih _)

theorem parseLoop_iff (cs : List Char) :
    ∀ n : Nat, n < 2 ^ 64 → ∀ m : Nat,
      (parseLoop cs n = Except.ok m ↔
        (∀ c ∈ cs, 48 ≤ c.toNat ∧ c.toNat ≤ 57) ∧
          cs.foldl (fun n c => n * 10 + (c.toNat - 48)) n = m ∧ m < 2 ^ 64) := by
  induction cs with
  | nil =>
    intro n hn m
    simp only [parseLoop, List.foldl_nil, List.not_mem_nil, false_implies, implies_true,
      true_and, Except.ok.injEq]
    constructor
    · rintro rfl; exact ⟨rfl, hn⟩
    · rintro ⟨rfl, _⟩; rfl
  | cons c t ih =>
    intro n hn m
    rw [parseLoop, List.foldl_cons]
    by_cases hd : 48 ≤ c.toNat ∧ c.toNat ≤ 57
    · rw [if_pos hd]
      have hge := le_foldl_decimal t (n * 10 + (c.toNat - 48))
      by_cases hc : cutoff ≤ n
      · rw [if_pos hc]
        have hc2 : 1844674407370955162 ≤ n := hc
        constructor
        · intro h; cases h
        · rintro ⟨_, hv, hm⟩
          omega
      · rw [if_neg hc]
        have hc2 : n < 1844674407370955162 := Nat.lt_of_not_le hc
        have h10 : n * 10 % 2 ^ 64 = n * 10 := Nat.mod_eq_of_lt (by omega)
        simp only [h10]
        by_cases ho : 2 ^ 64 ≤ n * 10 + (c.toNat - 48)
        · have hcond : (n * 10 + (c.toNat - 48)) % 2 ^ 64 < n * 10 ∨
              maxUint64 < (n * 10 + (c.toNat - 48)) % 2 ^ 64 := by
            left; omega
          rw [if_pos hcond]
          constructor
          · intro h; cases h
          · rintro ⟨_, hv, hm⟩
            omega
        · have hlt : n * 10 + (c.toNat - 48) < 2 ^ 64 := Nat.lt_of_not_le ho
          have hmod : (n * 10 + (c.toNat - 48)) % 2 ^ 64 = n * 10 + (c.toNat - 48) :=
            Nat.mod_eq_of_lt hlt
          have hcond : ¬ ((n * 10 + (c.toNat - 48)) % 2 ^ 64 < n * 10 ∨
              maxUint64 < (n * 10 + (c.toNat - 48)) % 2 ^ 64) := by
            rw [hmod]
            have : maxUint64 = 2 ^ 64 - 1 := rfl
            omega
          rw [if_neg hcond, hmod, ih _ hlt m]
          constructor
          · rintro ⟨h1, h2, h3⟩
            exact ⟨fun x hx => by
              rcases List.mem_cons.mp hx with rfl | hx
              · exact hd
              · exact h1 x hx, h2, h3⟩
          · rintro ⟨h1, h2, h3⟩
            exact ⟨fun x hx => h1 x (List.mem_cons_of_mem _ hx), h2, h3⟩
    · rw [if_neg hd]
      constructor
      · intro h; cases h
      · rintro ⟨h1, _, _⟩
        exact absurd (h1 c (List.mem_cons_self _ _)) hd

theorem ParseUint_iff (s : String) (m : Nat) :
    ParseUint s = Except.ok m ↔ IsUint64Decimal s ∧ decimalValue s = m := by
  unfold ParseUint IsUint64Decimal decimalValue
  by_cases he : s.data = []
  · rw [if_pos he]
    constructor
    · intro h; cases h
    · rintro ⟨⟨h, _⟩, _⟩; exact absurd he h
  · rw [if_neg he, parseLoop_iff s.data 0 (by norm_num) m]
    constructor
    · rintro ⟨h1, h2, h3⟩
      exact ⟨⟨he, h1, by rw [h2]; exact h3⟩, h2⟩
    · rintro ⟨⟨_, h1, h3⟩, h2⟩
      exact ⟨h1, h2, by rw [← h2]; exact h3⟩

theorem mustParseUint_ok (tok : String) (h : IsUint64Decimal tok) :
    mustParseUint tok = Except.ok (decimalValue tok) := by
  have := (ParseUint_iff tok (decimalValue tok)).mpr ⟨h, rfl⟩
  simp [mustParseUint, this]

theorem mustParseUint_error (tok : String) (h : ¬ IsUint64Decimal tok) :
    ∃ p, mustParseUint tok = Except.error p := by
  unfold mustParseUint
  cases hp : ParseUint tok with
  | ok n => exact absurd ((ParseUint_iff tok n).mp hp).1 h
  | error e => exact ⟨_, rfl⟩

theorem index_ok (tokens : List String) (i : Nat) (h : i < tokens.length) :
    index tokens i = Except.ok (tokens.getD i "") := by
  have hg : tokens[i]? = some tokens[i] := List.getElem?_eq_getElem h
  simp [index, List.getD, hg]

theorem index_error (tokens : List String) (i : Nat) (h : tokens.length ≤ i) :
    index tokens i = Except.error (PanicValue.index i tokens.length) := by
  have hg : tokens[i]? = none := List.getElem?_eq_none h
  simp [index, hg]

theorem parseRow_ok (line : String) (h : WellFormedRow line) :
    parseRow line = Except.ok (ifaceName line, rowSnapshot line) := by
  obtain ⟨hlen, hrx, htx⟩ := h
  have h0 : iIface < (Fields line).length := by unfold iIface; omega
  have h1 : iRxBytes < (Fields line).length := by unfold iRxBytes; omega
  have h9 : iTxBytes < (Fields line).length := by unfold iTxBytes; omega
  unfold parseRow
  simp only [index_ok _ _ h0, index_ok _ _ h1, index_ok _ _ h9]
  have e1 : mustParseUint ((Fields line).getD iRxBytes "") = Except.ok _ := mustParseUint_ok _ hrx
  have e9 : mustParseUint ((Fields line).getD iTxBytes "") = Except.ok _ := mustParseUint_ok _ htx
  simp only [bind, Except.bind, e1, e9]
  rfl

theorem parseRow_error (line : String) (h : ¬ WellFormedRow line) :
    ∃ p, parseRow line = Except.error p := by
  unfold parseRow
  by_cases h0 : iIface < (Fields line).length
  · by_cases h1 : iRxBytes < (Fields line).length
    · by_cases hrx : IsUint64Decimal (field line iRxBytes)
      · have e1 : mustParseUint ((Fields line).getD iRxBytes "") = Except.ok _ :=
          mustParseUint_ok _ hrx
        by_cases h9 : iTxBytes < (Fields line).length
        · by_cases htx : IsUint64Decimal (field line iTxBytes)
          · exact absurd ⟨by unfold iTxBytes at h9; omega, hrx, htx⟩ h
          · obtain ⟨p, hp⟩ := mustParseUint_error _ htx
            have hp2 : mustParseUint ((Fields line).getD iTxBytes "") = Except.error p := hp
            exact ⟨p, by
              simp only [index_ok _ _ h0, index_ok _ _ h1, index_ok _ _ h9, bind, Except.bind,
                e1, hp2]⟩
        · exact ⟨_, by
            simp only [index_ok _ _ h0, index_ok _ _ h1, index_error _ _ (Nat.le_of_not_lt h9),
              bind, Except.bind, e1]
            rfl⟩
      · obtain ⟨p, hp⟩ := mustParseUint_error _ hrx
        have hp2 : mustParseUint ((Fields line).getD iRxBytes "") = Except.error p := hp
        exact ⟨p, by simp only [index_ok _ _ h0, index_ok _ _ h1, bind, Except.bind, hp2]⟩
    · exact ⟨_, by
        simp only [index_ok _ _ h0, index_error _ _ (Nat.le_of_not_lt h1), bind, Except.bind]
        rfl⟩
  · exact ⟨_, by
      simp only [index_error _ _ (Nat.le_of_not_lt h0), bind, Except.bind]
      rfl⟩

theorem malformed_iff (line : String) : Malformed line ↔ ¬ WellFormedRow line := by
  unfold Malformed WellFormedRow
  constructor
  · rintro (h | h | h | h) ⟨h1, h2, h3⟩
    · rw [h] at h1; simp at h1
    · omega
    · exact h h2
    · exact h h3
  · intro h
    by_cases h1 : (Fields line).length < 10
    · exact Or.inr (Or.inl h1)
    · by_cases h2 : IsUint64Decimal (field line iRxBytes)
      · by_cases h3 : IsUint64Decimal (field line iTxBytes)
        · exact absurd ⟨Nat.le_of_not_lt h1, h2, h3⟩ h
        · exact Or.inr (Or.inr (Or.inr h3))
      · exact Or.inr (Or.inr (Or.inl h2))

theorem scanLoop_rows_ok (rows : List String) :
    ∀ (i : Nat) (snap : SnapMap), 2 ≤ i → (∀ l ∈ rows, WellFormedRow l) →
      scanLoop rows i snap =
        Except.ok (rows.foldl (fun m l => m.insert (ifaceName l) (rowSnapshot l)) snap) := by
  induction rows with
  | nil => intro i snap _ _; rfl
  | cons l t ih =>
    intro i snap hi hw
    rw [scanLoop, if_neg (by omega), parseRow_ok l (hw l (List.mem_cons_self _ _))]
    exact ih (i + 1) _ (by omega) (fun x hx => hw x (List.mem_cons_of_mem _ hx))

theorem scanLoop_rows_error (rows : List String) :
    ∀ (i : Nat) (snap : SnapMap), 2 ≤ i → (∃ l ∈ rows, ¬ WellFormedRow l) →
      ∃ p, scanLoop rows i snap = Except.error p := by
  induction rows with
  | nil => intro i snap _ h; obtain ⟨l, hl, _⟩ := h; cases hl
  | cons l t ih =>
    intro i snap hi h
    rw [scanLoop, if_neg (by omega)]
    by_cases hw : WellFormedRow l
    · rw [parseRow_ok l hw]
      obtain ⟨x, hx, hbad⟩ := h
      rcases List.mem_cons.mp hx with rfl | hx
      · exact absurd hw hbad
      · exact ih (i + 1) _ (by omega) ⟨x, hx, hbad⟩
    · obtain ⟨p, hp⟩ := parseRow_error l hw
      exact ⟨p, by rw [hp]⟩

theorem scanLoop_skips_header (lines : List String) (snap : SnapMap) :
    scanLoop lines 0 snap = scanLoop (lines.drop 2) 2 snap := by
  match lines with
  | [] => rfl
  | [_] => rfl
  | _ :: _ :: rest => rfl

theorem foldl_insert_lookup (key : String → String) (val : String → snapshot)
    (rows : List String) :
    ∀ (m : SnapMap) (name : String) (v : snapshot),
      (rows.foldl (fun m l => m.insert (key l) (val l)) m).lookup name = some v ↔
        (∃ pre l post, rows = pre ++ l :: post ∧ key l = name ∧
            (∀ x ∈ post, key x ≠ name) ∧ v = val l) ∨
          ((∀ x ∈ rows, key x ≠ name) ∧ m.lookup name = some v) := by
  induction rows with
  | nil =>
    intro m name v
    simp
  | cons r t ih =>
    intro m name v
    rw [List.foldl_cons, ih]
    constructor
    · rintro (⟨pre, l, post, ht, hk, hp, hv⟩ | ⟨hall, hl⟩)
      · exact Or.inl ⟨r :: pre, l, post, by rw [ht]; rfl, hk, hp, hv⟩
      · by_cases hk : key r = name
        · left
          refine ⟨[], r, t, rfl, hk, hall, ?_⟩
          rw [← hk, AList.lookup_insert] at hl
          exact (Option.some.inj hl).symm
        · right
          refine ⟨fun x hx => ?_, ?_⟩
          · rcases List.mem_cons.mp hx with rfl | hx
            · exact hk
            · exact hall x hx
          · rwa [AList.lookup_insert_ne (Ne.symm hk)] at hl
    · rintro (⟨pre, l, post, ht, hk, hp, hv⟩ | ⟨hall, hl⟩)
      · cases pre with
        | nil =>
          simp only [List.nil_append, List.cons.injEq] at ht
          obtain ⟨rfl, rfl⟩ := ht
          right
          refine ⟨hp, ?_⟩
          rw [← hk, AList.lookup_insert, hv]
        | cons a pre2 =>
          simp only [List.cons_append, List.cons.injEq] at ht
          obtain ⟨rfl, rfl⟩ := ht
          exact Or.inl ⟨pre2, l, post, rfl, hk, hp, hv⟩
      · right
        refine ⟨fun x hx => hall x (List.mem_cons_of_mem _ hx), ?_⟩
        rw [AList.lookup_insert_ne (Ne.symm (hall r (List.mem_cons_self _ _)))]
        exact hl

theorem foldl_insert_mem_keys (key : String → String) (val : String → snapshot)
    (rows : List String) :
    ∀ (m : SnapMap) (name : String),
      name ∈ (rows.foldl (fun m l => m.insert (key l) (val l)) m).keys ↔
        (∃ l ∈ rows, key l = name) ∨ name ∈ m.keys := by
  induction rows with
  | nil => intro m name; simp
  | cons r t ih =>
    intro m name
    rw [List.foldl_cons, ih, ← AList.mem_keys, AList.mem_insert, AList.mem_keys]
    simp only [List.mem_cons, exists_eq_or_imp]
    constructor
    · rintro (h | h | h)
      · exact Or.inl (Or.inr h)
      · exact Or.inl (Or.inl h.symm)
      · exact Or.inr h
    · rintro ((h | h) | h)
      · exact Or.inr (Or.inl h.symm)
      · exact Or.inl h
      · exact Or.inr (Or.inr h)

/-! ## Lemmas on the stream injector -/

theorem i3statusLoop_prefix {V : Type} (J : Codec V)
    (call : Nat → String → String → CallResult) (iface : String) (lines : List String) :
    ∀ (k : Nat) (out : List String),
      ∃ more, (i3statusLoop J call iface lines k out).stdout = out ++ more := by
  induction lines with
  | nil => intro k out; exact ⟨[], by simp [i3statusLoop]⟩
  | cons l t ih =>
    intro k out
    rw [i3statusLoop]
    cases hl : handleLine J (call k) iface l with
    | panicked e => exact ⟨[], by simp⟩
    | blocked => exact ⟨[], by simp⟩
    | printed o =>
      obtain ⟨more, hm⟩ := ih (k + 1) (out ++ [o])
      exact ⟨o :: more, by simp [hm]⟩

theorem i3statusLoop_get {V : Type} (J : Codec V)
    (call : Nat → String → String → CallResult) (iface : String) (lines : List String) :
    ∀ (k : Nat) (out : List String) (n : Nat) (line o : String),
      lines.get? n = some line →
      allPrinted J call iface (lines.take n) k = true →
      handleLine J (call (k + n)) iface line = LineResult.printed o →
      (i3statusLoop J call iface lines k out).stdout.get? (out.length + n) = some o := by
  induction lines with
  | nil => intro k out n line o hget; simp at hget
  | cons l t ih =>
    intro k out n line o hget hall hline
    rw [i3statusLoop]
    cases n with
    | zero =>
      simp only [List.get?_cons_zero, Option.some.injEq] at hget
      subst hget
      rw [Nat.add_zero] at hline
      rw [hline]
      obtain ⟨more, hm⟩ := i3statusLoop_prefix J call iface t (k + 1) (out ++ [o])
      rw [hm, List.append_assoc, Nat.add_zero, List.get?_eq_getElem?,
        List.getElem?_append_right (le_refl _)]
      simp
    | succ n =>
      simp only [List.get?_cons_succ] at hget
      rw [List.take_succ_cons, allPrinted] at hall
      cases hl : handleLine J (call k) iface l with
      | panicked e => rw [hl] at hall; cases hall
      | blocked => rw [hl] at hall; cases hall
      | printed o0 =>
        rw [hl] at hall
        have he : k + 1 + n = k + (n + 1) := by omega
        have := ih (k + 1) (out ++ [o0]) n line o hget hall (by rw [he]; exact hline)
        simpa [Nat.add_assoc, Nat.add_comm 1 n] using this

theorem i3statusLoop_all {V : Type} (J : Codec V)
    (call : Nat → String → String → CallResult) (iface : String) (lines : List String) :
    ∀ (k : Nat) (out : List String), allPrinted J call iface lines k = true →
      (i3statusLoop J call iface lines k out).stdout.length = out.length + lines.length ∧
      (i3statusLoop J call iface lines k out).exit = Termination.returned := by
  induction lines with
  | nil => intro k out _; simp [i3statusLoop]
  | cons l t ih =>
    intro k out hall
    rw [allPrinted] at hall
    rw [i3statusLoop]
    cases hl : handleLine J (call k) iface l with
    | panicked e => rw [hl] at hall; cases hall
    | blocked => rw [hl] at hall; cases hall
    | printed o =>
      rw [hl] at hall
      obtain ⟨h1, h2⟩ := ih (k + 1) (out ++ [o]) hall
      refine ⟨?_, h2⟩
      rw [h1]
      simp [Nat.add_assoc, Nat.add_comm 1]

theorem allPrinted_snoc {V : Type} (J : Codec V)
    (call : Nat → String → String → CallResult) (iface : String) (lines : List String) :
    ∀ (k : Nat) (line o : String), allPrinted J call iface lines k = true →
      handleLine J (call (k + lines.length)) iface line = LineResult.printed o →
      allPrinted J call iface (lines ++ [line]) k = true := by
  induction lines with
  | nil =>
    intro k line o _ hl
    simp only [List.length_nil, Nat.add_zero] at hl
    simp [allPrinted, hl]
  | cons l t ih =>
    intro k line o hall hl
    rw [allPrinted] at hall
    rw [List.cons_append, allPrinted]
    cases h0 : handleLine J (call k) iface l with
    | panicked e => rw [h0] at hall; cases hall
    | blocked => rw [h0] at hall; cases hall
    | printed o0 =>
      rw [h0] at hall
      have he : k + 1 + t.length = k + (l :: t).length := by simp; omega
      exact ih (k + 1) line o hall (by rw [he]; exact hl)

theorem get_of_returned (call : String → String → CallResult) (iface rate : String)
    (r : Except error Rate)
    (h : call ("StatsMap." ++ rate ++ "Rate") iface = CallResult.returned r) :
    get call iface rate = some (rateText rate r) := by
  cases r <;> simp [get, h, rateText]

theorem handleLine_of_returned {V : Type} (J : Codec V) (call : String → String → CallResult)
    (iface line : String) (items : List V) (rx tx : Except error Rate)
    (hdec : J.Unmarshal (splitComma line).2 = Except.ok items)
    (hrx : call "StatsMap.RxRate" iface = CallResult.returned rx)
    (htx : call "StatsMap.TxRate" iface = CallResult.returned tx) :
    handleLine J call iface line = LineResult.printed ((splitComma line).1 ++ "[" ++
      ",".intercalate
        (("\x7b\"name\":" ++ J.encodeString (iface ++ "-rxrate") ++ ",\"full_text\":" ++
            J.encodeString (rateText "Rx" rx) ++ "\x7d") ::
          ("\x7b\"name\":" ++ J.encodeString (iface ++ "-txrate") ++ ",\"full_text\":" ++
            J.encodeString (rateText "Tx" tx) ++ "\x7d") ::
          items.map J.encodeValue) ++ "]") := by
  have g1 : get call iface "Rx" = some (rateText "Rx" rx) := get_of_returned call iface "Rx" rx hrx
  have g2 : get call iface "Tx" = some (rateText "Tx" tx) := get_of_returned call iface "Tx" tx htx
  simp [handleLine, hdec, g1, g2, Marshal, encodeElem, encodeItem, List.map_map,
    Function.comp_def, String.append_assoc]

theorem allPrinted_take_of_returned {V : Type} (J : Codec V)
    (call : Nat → String → String → CallResult) (iface : String) (lines : List String) :
    ∀ (k m : Nat),
      (∀ j l, j < m → lines.get? j = some l →
        (∃ its, J.Unmarshal (splitComma l).2 = Except.ok its) ∧
        (∃ r, call (k + j) "StatsMap.RxRate" iface = CallResult.returned r) ∧
        (∃ r, call (k + j) "StatsMap.TxRate" iface = CallResult.returned r)) →
      allPrinted J call iface (lines.take m) k = true := by
  induction lines with
  | nil => intro k m _; simp [allPrinted]
  | cons l t ih =>
    intro k m h
    cases m with
    | zero => simp [allPrinted]
    | succ m =>
      rw [List.take_succ_cons, allPrinted]
      obtain ⟨⟨its, hd⟩, ⟨rx, hrx⟩, ⟨tx, htx⟩⟩ := h 0 l (Nat.succ_pos m) rfl
      rw [Nat.add_zero] at hrx htx
      rw [handleLine_of_returned J (call k) iface l its rx tx hd hrx htx]
      apply ih (k + 1) m
      intro j l2 hj hget
      have := h (j + 1) l2 (Nat.succ_lt_succ hj) hget
      have he : k + (j + 1) = k + 1 + j := by omega
      rw [he] at this
      exact this

/-! ## Claims on the sampling loop and the queries -/

/-- C1 (counterexample): with the stored rx counter `2 ^ 53 + 1` and the new
counter `2 ^ 53`, the new counter is smaller than the old one, yet the tick
stores the rate `0`: it is neither negative nor equal to `new - old = -1`,
because both conversions to `float64` give `2 ^ 53`. -/
theorem sampleTick_rate_zero_on_decrease :
    (snapAt53.lookup "eth0").map (fun v => v.rxBytes) = some 9007199254740992 ∧
    (stateAbove53.lookup "eth0").map (fun s => s.rxBytes) = some 9007199254740993 ∧
    ((sampleTick stateAbove53 snapAt53).lookup "eth0").map (fun s => s.rxRate) = some 0 := by
  decide

/-- C1 (amended): for every daemon state and every snapshot, one sampling tick
stores, for each interface of the snapshot, the snapshot's counters and, for rx
and tx independently, the `float64` rate `(float64(new) - float64(old)) / 1.0`,
where `old` is the stored counter (zero without prior state).  The rate equals
`new - old` exactly whenever the two counters and their difference are
representable in `float64`, in particular whenever both counters are at most
`2 ^ 53`.  It is non-negative when `new >= old`.  When `new < old` it is
negative, neither clamped nor corrected for wraparound, unless both counters
convert to the same `float64`, and then it is zero: the rate is negative
whenever `float64(new) < float64(old)`, positive whenever
`float64(old) < float64(new)`, and zero exactly when the two conversions
coincide. -/
theorem sampleTick_sets_counters_and_rates (ss : StatsMap) (snap : SnapMap) (iface : String)
    (v : snapshot) (h : snap.lookup iface = some v) :
    ∃ s : stats, (sampleTick ss snap).lookup iface = some s ∧
      s.rxBytes = v.rxBytes ∧ s.txBytes = v.txBytes ∧
      s.rxRate = rate v.rxBytes ((ss.lookup iface).getD stats.zero).rxBytes ∧
      s.txRate = rate v.txBytes ((ss.lookup iface).getD stats.zero).txBytes ∧
      (((ss.lookup iface).getD stats.zero).rxBytes ≤ v.rxBytes → 0 ≤ s.rxRate) ∧
      (v.rxBytes < ((ss.lookup iface).getD stats.zero).rxBytes → s.rxRate ≤ 0) ∧
      (float64OfNat v.rxBytes < float64OfNat ((ss.lookup iface).getD stats.zero).rxBytes → s.rxRate < 0) ∧
      (float64OfNat ((ss.lookup iface).getD stats.zero).rxBytes < float64OfNat v.rxBytes → 0 < s.rxRate) ∧
      (s.rxRate = 0 ↔ float64OfNat v.rxBytes = float64OfNat ((ss.lookup iface).getD stats.zero).rxBytes) ∧
      (v.rxBytes < ((ss.lookup iface).getD stats.zero).rxBytes → float64OfNat v.rxBytes ≠ float64OfNat ((ss.lookup iface).getD stats.zero).rxBytes → s.rxRate < 0) ∧
      (float64OfNat v.rxBytes = v.rxBytes → float64OfNat ((ss.lookup iface).getD stats.zero).rxBytes = ((ss.lookup iface).getD stats.zero).rxBytes →
        float64OfNat ((v.rxBytes : Int) - (((ss.lookup iface).getD stats.zero).rxBytes : Int)).natAbs
          = ((v.rxBytes : Int) - (((ss.lookup iface).getD stats.zero).rxBytes : Int)).natAbs →
        s.rxRate = (v.rxBytes : Int) - (((ss.lookup iface).getD stats.zero).rxBytes : Int)) ∧
      (v.rxBytes ≤ 2 ^ 53 → ((ss.lookup iface).getD stats.zero).rxBytes ≤ 2 ^ 53 →
        s.rxRate = (v.rxBytes : Int) - (((ss.lookup iface).getD stats.zero).rxBytes : Int) ∧
        (v.rxBytes < ((ss.lookup iface).getD stats.zero).rxBytes → s.rxRate < 0)) ∧
      (((ss.lookup iface).getD stats.zero).txBytes ≤ v.txBytes → 0 ≤ s.txRate) ∧
      (v.txBytes < ((ss.lookup iface).getD stats.zero).txBytes → s.txRate ≤ 0) ∧
      (float64OfNat v.txBytes < float64OfNat ((ss.lookup iface).getD stats.zero).txBytes → s.txRate < 0) ∧
      (float64OfNat ((ss.lookup iface).getD stats.zero).txBytes < float64OfNat v.txBytes → 0 < s.txRate) ∧
      (s.txRate = 0 ↔ float64OfNat v.txBytes = float64OfNat ((ss.lookup iface).getD stats.zero).txBytes) ∧
      (v.txBytes < ((ss.lookup iface).getD stats.zero).txBytes → float64OfNat v.txBytes ≠ float64OfNat ((ss.lookup iface).getD stats.zero).txBytes → s.txRate < 0) ∧
      (float64OfNat v.txBytes = v.txBytes → float64OfNat ((ss.lookup iface).getD stats.zero).txBytes = ((ss.lookup iface).getD stats.zero).txBytes →
        float64OfNat ((v.txBytes : Int) - (((ss.lookup iface).getD stats.zero).txBytes : Int)).natAbs
          = ((v.txBytes : Int) - (((ss.lookup iface).getD stats.zero).txBytes : Int)).natAbs →
        s.txRate = (v.txBytes : Int) - (((ss.lookup iface).getD stats.zero).txBytes : Int)) ∧
      (v.txBytes ≤ 2 ^ 53 → ((ss.lookup iface).getD stats.zero).txBytes ≤ 2 ^ 53 →
        s.txRate = (v.txBytes : Int) - (((ss.lookup iface).getD stats.zero).txBytes : Int) ∧
        (v.txBytes < ((ss.lookup iface).getD stats.zero).txBytes → s.txRate < 0)) := by
  refine ⟨updated (ss.lookup iface) v, sampleTick_lookup_of_mem ss snap iface v h,
    rfl, rfl, rfl, rfl, ?_, ?_, ?_, ?_, ?_, ?_, ?_, ?_, ?_, ?_, ?_, ?_, ?_, ?_, ?_, ?_⟩
  · exact fun hle => rate_nonneg _ _ hle
  · exact fun hlt => rate_nonpos _ _ (le_of_lt hlt)
  · exact fun hlt => rate_neg_of_lt _ _ hlt
  · exact fun hlt => rate_pos_of_lt _ _ hlt
  · exact rate_eq_zero_iff _ _
  · intro hlt hne
    exact rate_neg_of_lt _ _ (lt_of_le_of_ne (float64OfNat_mono _ _ (le_of_lt hlt)) hne)
  · exact fun hn ho hd => rate_exact_of_representable _ _ hn ho hd
  · intro hn ho
    have he : (updated (ss.lookup iface) v).rxRate
        = (v.rxBytes : Int) - (((ss.lookup iface).getD stats.zero).rxBytes : Int) :=
      rate_exact _ _ hn ho
    refine ⟨he, fun hlt => ?_⟩
    rw [he]
    exact Int.sub_neg_of_lt (Int.ofNat_lt.mpr hlt)
  · exact fun hle => rate_nonneg _ _ hle
  · exact fun hlt => rate_nonpos _ _ (le_of_lt hlt)
  · exact fun hlt => rate_neg_of_lt _ _ hlt
  · exact fun hlt => rate_pos_of_lt _ _ hlt
  · exact rate_eq_zero_iff _ _
  · intro hlt hne
    exact rate_neg_of_lt _ _ (lt_of_le_of_ne (float64OfNat_mono _ _ (le_of_lt hlt)) hne)
  · exact fun hn ho hd => rate_exact_of_representable _ _ hn ho hd
  · intro hn ho
    have he : (updated (ss.lookup iface) v).txRate
        = (v.txBytes : Int) - (((ss.lookup iface).getD stats.zero).txBytes : Int) :=
      rate_exact _ _ hn ho
    refine ⟨he, fun hlt => ?_⟩
    rw [he]
    exact Int.sub_neg_of_lt (Int.ofNat_lt.mpr hlt)

/-- C1 (witness): the snapshots `rx 1000, tx 2000` and then `rx 3000, tx 2200`
give the rx rate 2000 and the tx rate 200; and a counter that wraps around,
from `2 ^ 64 - 1` to 0, gives the negative rate `-(2 ^ 64)`. -/
theorem sampleTick_sets_counters_and_rates_witness :
    snapSecond.lookup "eth0" = some { rxBytes := 3000, txBytes := 2200 } ∧
    (∃ s : stats, (sampleTick (runDaemon [snapFirst]) snapSecond).lookup "eth0" = some s ∧
      s.rxBytes = 3000 ∧ s.txBytes = 2200 ∧ s.rxRate = 2000 ∧ s.txRate = 200) ∧
    snapAfterWrap.lookup "eth0" = some { rxBytes := 0, txBytes := 0 } ∧
    (∃ s : stats, (sampleTick stateBeforeWrap snapAfterWrap).lookup "eth0" = some s ∧
      s.rxBytes = 0 ∧ s.rxRate < 0 ∧ s.rxRate = -18446744073709551616) := by
  refine ⟨by decide, ?_, by decide, ?_⟩
  · obtain ⟨s, h1, h2, h3, h4, h5, _⟩ :=
      sampleTick_sets_counters_and_rates (runDaemon [snapFirst]) snapSecond "eth0"
        { rxBytes := 3000, txBytes := 2200 } (by decide)
    refine ⟨s, h1, h2, h3, ?_, ?_⟩
    · rw [h4]; decide
    · rw [h5]; decide
  · obtain ⟨s, h1, h2, _, h4, _, _, _, hneg, _⟩ :=
      sampleTick_sets_counters_and_rates stateBeforeWrap snapAfterWrap "eth0"
        { rxBytes := 0, txBytes := 0 } (by decide)
    refine ⟨s, h1, h2, hneg (by decide), ?_⟩
    rw [h4]; decide

/-- C2 (counterexample): after exactly one sampling tick from the empty state,
with a snapshot that contains `eth0` (rx 1000, tx 2000), `RxRate` and `TxRate`
return no error and write the rates 1000 and 2000. -/
theorem rate_answered_after_first_tick :
    (RxRate (runDaemon [snapFirst]) "eth0" 0).err = none ∧
    (RxRate (runDaemon [snapFirst]) "eth0" 0).out = 1000 ∧
    (TxRate (runDaemon [snapFirst]) "eth0" 0).err = none ∧
    (TxRate (runDaemon [snapFirst]) "eth0" 0).out = 2000 := by
  decide

/-- C2 (amended): from the daemon's empty state, after zero ticks `RxRate` and
`TxRate` return the "no such interface" error for every name and leave the
output unwritten; after exactly one tick whose snapshot contains the interface
they return no error but the rate computed against zero counters, which is
non-negative and equals the counter itself when that is at most `2 ^ 53`. -/
theorem rate_before_second_sample (snap : SnapMap) (iface : String) (v : snapshot) (r : Rate)
    (h : snap.lookup iface = some v) :
    (RxRate (runDaemon []) iface r).err = some (error.noSuchInterface iface) ∧
    (RxRate (runDaemon []) iface r).out = r ∧
    (TxRate (runDaemon []) iface r).err = some (error.noSuchInterface iface) ∧
    (TxRate (runDaemon []) iface r).out = r ∧
    (RxRate (runDaemon [snap]) iface r).err = none ∧
    (RxRate (runDaemon [snap]) iface r).out = rate v.rxBytes 0 ∧
    (TxRate (runDaemon [snap]) iface r).err = none ∧
    (TxRate (runDaemon [snap]) iface r).out = rate v.txBytes 0 ∧
    0 ≤ rate v.rxBytes 0 ∧ 0 ≤ rate v.txBytes 0 ∧
    (v.rxBytes ≤ 2 ^ 53 → rate v.rxBytes 0 = (v.rxBytes : Int)) ∧
    (v.txBytes ≤ 2 ^ 53 → rate v.txBytes 0 = (v.txBytes : Int)) := by
  have h0 : (runDaemon []).lookup iface = none := by simp [runDaemon]
  have h1 : (runDaemon [snap]).lookup iface = some (updated none v) := by
    have := sampleTick_lookup_of_mem ∅ snap iface v h
    simpa [runDaemon] using this
  refine ⟨?_, ?_, ?_, ?_, ?_, ?_, ?_, ?_, rate_nonneg _ _ (Nat.zero_le _),
    rate_nonneg _ _ (Nat.zero_le _), ?_, ?_⟩
  · simp only [RxRate, h0]
  · simp only [RxRate, h0]
  · simp only [TxRate, h0]
  · simp only [TxRate, h0]
  · simp only [RxRate, h1]
  · simp only [RxRate, h1]; rfl
  · simp only [TxRate, h1]
  · simp only [TxRate, h1]; rfl
  · intro hle
    have := rate_exact v.rxBytes 0 hle (Nat.zero_le _)
    simpa using this
  · intro hle
    have := rate_exact v.txBytes 0 hle (Nat.zero_le _)
    simpa using this

/-- C2 (witness): the amended statement at the snapshot `eth0: rx 1000, tx 2000`. -/
theorem rate_before_second_sample_witness :
    snapFirst.lookup "eth0" = some { rxBytes := 1000, txBytes := 2000 } ∧
    (RxRate (runDaemon []) "eth0" 7).err = some (error.noSuchInterface "eth0") ∧
    (RxRate (runDaemon [snapFirst]) "eth0" 7).err = none ∧
    (RxRate (runDaemon [snapFirst]) "eth0" 7).out = rate 1000 0 :=
  ⟨by decide,
   (rate_before_second_sample snapFirst "eth0" { rxBytes := 1000, txBytes := 2000 } 7
      (by decide)).1,
   (rate_before_second_sample snapFirst "eth0" { rxBytes := 1000, txBytes := 2000 } 7
      (by decide)).2.2.2.2.1,
   (rate_before_second_sample snapFirst "eth0" { rxBytes := 1000, txBytes := 2000 } 7
      (by decide)).2.2.2.2.2.1⟩

/-- C3: each of `RxBytes`, `TxBytes`, `RxRate`, `TxRate` returns the "no such
interface" error exactly when the name is not a key of the state map, and then
leaves the output unwritten; otherwise it returns no error and writes the
stored field of the entry.  No query changes the map, and a name that is in no
snapshot is unknown to all four queries after any number of ticks. -/
theorem queries_fail_iff_unknown (ss : StatsMap) (iface : String) (b : Nat) (r : Rate) :
    (((RxBytes ss iface b).err = some (error.noSuchInterface iface) ↔ iface ∉ ss.keys) ∧
     ((TxBytes ss iface b).err = some (error.noSuchInterface iface) ↔ iface ∉ ss.keys) ∧
     ((RxRate ss iface r).err = some (error.noSuchInterface iface) ↔ iface ∉ ss.keys) ∧
     ((TxRate ss iface r).err = some (error.noSuchInterface iface) ↔ iface ∉ ss.keys)) ∧
    (iface ∉ ss.keys →
      (RxBytes ss iface b).out = b ∧ (TxBytes ss iface b).out = b ∧
      (RxRate ss iface r).out = r ∧ (TxRate ss iface r).out = r) ∧
    (iface ∈ ss.keys → ∃ s : stats, ss.lookup iface = some s ∧
      (RxBytes ss iface b).err = none ∧ (RxBytes ss iface b).out = s.rxBytes ∧
      (TxBytes ss iface b).err = none ∧ (TxBytes ss iface b).out = s.txBytes ∧
      (RxRate ss iface r).err = none ∧ (RxRate ss iface r).out = s.rxRate ∧
      (TxRate ss iface r).err = none ∧ (TxRate ss iface r).out = s.txRate) ∧
    ((RxBytes ss iface b).ss = ss ∧ (TxBytes ss iface b).ss = ss ∧
     (RxRate ss iface r).ss = ss ∧ (TxRate ss iface r).ss = ss) ∧
    (∀ snaps : List SnapMap, (∀ snap ∈ snaps, iface ∉ snap.keys) →
      (RxBytes (runDaemon snaps) iface b).err = some (error.noSuchInterface iface) ∧
      (TxBytes (runDaemon snaps) iface b).err = some (error.noSuchInterface iface) ∧
      (RxRate (runDaemon snaps) iface r).err = some (error.noSuchInterface iface) ∧
      (TxRate (runDaemon snaps) iface r).err = some (error.noSuchInterface iface)) := by
  refine ⟨?_, ?_, ?_, ?_, ?_⟩
  · rw [not_mem_keys_iff_lookup]
    cases hl : ss.lookup iface <;> simp [RxBytes, TxBytes, RxRate, TxRate, hl]
  · intro hk
    have hl := (not_mem_keys_iff_lookup ss iface).mp hk
    simp [RxBytes, TxBytes, RxRate, TxRate, hl]
  · intro hk
    obtain ⟨s, hl⟩ := (mem_keys_iff_lookup ss iface).mp hk
    exact ⟨s, hl, by simp [RxBytes, TxBytes, RxRate, TxRate, hl]⟩
  · cases hl : ss.lookup iface <;> simp [RxBytes, TxBytes, RxRate, TxRate, hl]
  · intro snaps hs
    have hl : (runDaemon snaps).lookup iface = none :=
      foldl_sampleTick_lookup_none snaps iface hs ∅ (AList.lookup_empty iface)
    simp [RxBytes, TxBytes, RxRate, TxRate, hl]

/-- C3 (witness): `wlan9` is in neither of the two sample snapshots, so after
both ticks `RxRate` answers with the error, while `eth0` is answered. -/
theorem queries_fail_iff_unknown_witness :
    (∀ snap ∈ [snapFirst, snapSecond], "wlan9" ∉ snap.keys) ∧
    (RxRate (runDaemon [snapFirst, snapSecond]) "wlan9" 0).err
      = some (error.noSuchInterface "wlan9") ∧
    "eth0" ∈ (runDaemon [snapFirst, snapSecond]).keys ∧
    (∃ s : stats, (runDaemon [snapFirst, snapSecond]).lookup "eth0" = some s ∧
      (RxBytes (runDaemon [snapFirst, snapSecond]) "eth0" 0).err = none ∧
      (RxBytes (runDaemon [snapFirst, snapSecond]) "eth0" 0).out = s.rxBytes) := by
  have hw : ∀ snap ∈ [snapFirst, snapSecond], "wlan9" ∉ snap.keys := by decide
  have he : "eth0" ∈ (runDaemon [snapFirst, snapSecond]).keys := by decide
  refine ⟨hw, ?_, he, ?_⟩
  · exact ((queries_fail_iff_unknown ∅ "wlan9" 0 0).2.2.2.2
      [snapFirst, snapSecond] hw).2.2.1
  · obtain ⟨s, h1, h2, h3, _⟩ :=
      (queries_fail_iff_unknown (runDaemon [snapFirst, snapSecond]) "eth0" 0 0).2.2.1 he
    exact ⟨s, h1, h2, h3⟩

/-- C4 (counterexample): `eth0` is in the state after the first tick and is
absent from the next snapshot, yet after that tick it is still listed by
`sortedKeys` and `dumpStats` and `RxBytes` still answers for it. -/
theorem vanished_interface_still_dumped :
    "eth0" ∈ (runDaemon [snapFirst]).keys ∧
    "eth0" ∉ snapWithoutEth0.keys ∧
    "eth0" ∈ sortedKeys (sampleTick (runDaemon [snapFirst]) snapWithoutEth0) ∧
    "eth0" ∈ (dumpStats (sampleTick (runDaemon [snapFirst]) snapWithoutEth0)).map Prod.fst ∧
    (RxBytes (sampleTick (runDaemon [snapFirst]) snapWithoutEth0) "eth0" 0).err = none ∧
    (RxBytes (sampleTick (runDaemon [snapFirst]) snapWithoutEth0) "eth0" 0).out = 1000 := by
  have hk : "eth0" ∈ (sampleTick (runDaemon [snapFirst]) snapWithoutEth0).keys := by decide
  refine ⟨by decide, by decide, (mem_sortedKeys _ _).mpr hk, ?_, by decide, by decide⟩
  rw [dumpStats_names]
  exact (mem_sortedKeys _ _).mpr hk

/-- C4 (amended): an interface that disappears between ticks is kept.  For
every state containing `X` and every snapshot without `X`, the tick leaves the
entry of `X` unchanged, so `X` is still among the names listed by `dumpStats`
(the sorted keys of the map) with its old entry, and all four queries still
answer with the old counters and rates. -/
theorem vanished_interface_kept (ss : StatsMap) (snap : SnapMap) (X : String) (b : Nat)
    (r : Rate) (hX : X ∈ ss.keys) (hs : X ∉ snap.keys) :
    ∃ s : stats, ss.lookup X = some s ∧
      (sampleTick ss snap).lookup X = some s ∧
      X ∈ sortedKeys (sampleTick ss snap) ∧
      (X, s) ∈ dumpStats (sampleTick ss snap) ∧
      (RxBytes (sampleTick ss snap) X b).err = none ∧
      (RxBytes (sampleTick ss snap) X b).out = s.rxBytes ∧
      (TxBytes (sampleTick ss snap) X b).err = none ∧
      (TxBytes (sampleTick ss snap) X b).out = s.txBytes ∧
      (RxRate (sampleTick ss snap) X r).err = none ∧
      (RxRate (sampleTick ss snap) X r).out = s.rxRate ∧
      (TxRate (sampleTick ss snap) X r).err = none ∧
      (TxRate (sampleTick ss snap) X r).out = s.txRate := by
  obtain ⟨s, hl⟩ := (mem_keys_iff_lookup ss X).mp hX
  have hn : snap.lookup X = none := by
    rw [← AList.mem_keys] at hs
    exact AList.lookup_eq_none.mpr hs
  have hl2 : (sampleTick ss snap).lookup X = some s := by
    rw [sampleTick_lookup_of_not_mem ss snap X hn, hl]
  have hk : X ∈ sortedKeys (sampleTick ss snap) :=
    (mem_sortedKeys _ X).mpr ((mem_keys_iff_lookup _ X).mpr ⟨s, hl2⟩)
  refine ⟨s, hl, hl2, hk, ?_, ?_⟩
  · unfold dumpStats
    exact List.mem_map.mpr ⟨X, hk, by rw [hl2]; rfl⟩
  · simp [RxBytes, TxBytes, RxRate, TxRate, hl2]

/-- C4 (witness): the amended statement at `eth0`, sampled once and then
missing from the next snapshot. -/
theorem vanished_interface_kept_witness :
    "eth0" ∈ (runDaemon [snapFirst]).keys ∧ "eth0" ∉ snapWithoutEth0.keys ∧
    ∃ s : stats, (runDaemon [snapFirst]).lookup "eth0" = some s ∧
      (sampleTick (runDaemon [snapFirst]) snapWithoutEth0).lookup "eth0" = some s ∧
      "eth0" ∈ sortedKeys (sampleTick (runDaemon [snapFirst]) snapWithoutEth0) := by
  have h1 : "eth0" ∈ (runDaemon [snapFirst]).keys := by decide
  have h2 : "eth0" ∉ snapWithoutEth0.keys := by decide
  obtain ⟨s, a, b, c, _⟩ :=
    vanished_interface_kept (runDaemon [snapFirst]) snapWithoutEth0 "eth0" 0 0 h1 h2
  exact ⟨h1, h2, s, a, b, c⟩

/-! ## Claims on the leader lock and the snapshot reader -/

/-- C5: `lock` returns `true` exactly when creating the directory, opening it
and the non-blocking exclusive flock all succeed; it returns `false` exactly
when creation and opening succeed and flock fails with `EWOULDBLOCK`; and it
panics exactly in the remaining cases: creation fails, opening fails, or flock
fails with another error. -/
theorem lock_outcomes (mkdirErr : Option Errno) (openRes : Except Errno Int)
    (flockErr : Int → Option Errno) :
    (lock mkdirErr openRes flockErr = Except.ok true ↔
      mkdirErr = none ∧ ∃ f, openRes = Except.ok f ∧ flockErr f = none) ∧
    (lock mkdirErr openRes flockErr = Except.ok false ↔
      mkdirErr = none ∧ ∃ f, openRes = Except.ok f ∧ flockErr f = some EWOULDBLOCK) ∧
    ((∃ p, lock mkdirErr openRes flockErr = Except.error p) ↔
      (∃ e, mkdirErr = some e) ∨
      (mkdirErr = none ∧ ∃ e, openRes = Except.error e) ∨
      (mkdirErr = none ∧ ∃ f e, openRes = Except.ok f ∧ flockErr f = some e ∧
        e ≠ EWOULDBLOCK)) := by
  cases mkdirErr with
  | some e => simp [lock]
  | none =>
    cases openRes with
    | error e => simp [lock]
    | ok f =>
      cases hf : flockErr f with
      | none => simp [lock, hf]
      | some e =>
        by_cases he : e = EWOULDBLOCK
        · simp [lock, hf, he]
        · simp [lock, hf, he]

/-- C6: when every line after the first two has at least 10 fields with 64-bit
unsigned decimal integers at the positions 1 and 9, `getSnapshot` returns a
map whose keys are exactly the interface names of those lines (field 0 without
a trailing `:`) and which maps each name to the counters of the last line that
carries it, field 1 as rx and field 9 as tx.  The two header lines contribute
nothing: any other two lines in their place give the same map. -/
theorem getSnapshot_wellformed (lines : List String) (h1 h2 : String)
    (h : ∀ line ∈ lines.drop 2, WellFormedRow line) :
    ∃ m : SnapMap, getSnapshot none lines none = Except.ok m ∧
      (∀ name, name ∈ m.keys ↔ ∃ line ∈ lines.drop 2, ifaceName line = name) ∧
      (∀ name v, m.lookup name = some v ↔
        ∃ pre line post, lines.drop 2 = pre ++ line :: post ∧ ifaceName line = name ∧
          (∀ x ∈ post, ifaceName x ≠ name) ∧ v = rowSnapshot line) ∧
      getSnapshot none (h1 :: h2 :: lines.drop 2) none = Except.ok m := by
  have hs : scanLoop lines 0 ∅ = Except.ok
      ((lines.drop 2).foldl (fun m l => m.insert (ifaceName l) (rowSnapshot l)) ∅) := by
    rw [scanLoop_skips_header]
    exact scanLoop_rows_ok _ 2 ∅ (le_refl _) h
  have hs2 : scanLoop (h1 :: h2 :: lines.drop 2) 0 ∅ = Except.ok
      ((lines.drop 2).foldl (fun m l => m.insert (ifaceName l) (rowSnapshot l)) ∅) := by
    rw [scanLoop_skips_header]
    exact scanLoop_rows_ok _ 2 ∅ (le_refl _) h
  have hg : getSnapshot none lines none = Except.ok
      ((lines.drop 2).foldl (fun m l => m.insert (ifaceName l) (rowSnapshot l)) ∅) := by
    simp only [getSnapshot, hs]
  have hg2 : getSnapshot none (h1 :: h2 :: lines.drop 2) none = Except.ok
      ((lines.drop 2).foldl (fun m l => m.insert (ifaceName l) (rowSnapshot l)) ∅) := by
    simp only [getSnapshot, hs2]
  refine ⟨_, hg, ?_, ?_, hg2⟩
  · intro name
    rw [foldl_insert_mem_keys]
    simp
  · intro name v
    rw [foldl_insert_lookup]
    simp

/-- C6 (witness): the table of the comment in `main.go` is well formed, and
its row `wlp2s0: 39631108358 27753100 0 0 0 0 0 0 2365593650 14270663 ...`
yields the entry rx 39631108358, tx 2365593650. -/
theorem getSnapshot_wellformed_witness :
    (∀ line ∈ procNetDevSample.drop 2, WellFormedRow line) ∧
    ∃ m : SnapMap, getSnapshot none procNetDevSample none = Except.ok m ∧
      m.lookup "wlp2s0" = some { rxBytes := 39631108358, txBytes := 2365593650 } ∧
      (∀ name, name ∈ m.keys ↔ ∃ line ∈ procNetDevSample.drop 2, ifaceName line = name) := by
  have hw : ∀ line ∈ procNetDevSample.drop 2, WellFormedRow line := by decide
  obtain ⟨m, hm, hk, hl, _⟩ := getSnapshot_wellformed procNetDevSample "" "" hw
  refine ⟨hw, m, hm, ?_, hk⟩
  have he : (getSnapshot none procNetDevSample none).toOption.bind
      (fun s => s.lookup "wlp2s0") = some { rxBytes := 39631108358, txBytes := 2365593650 } := by
    decide
  rw [hm] at he
  exact he

/-- C7: if some line after the two header lines is malformed (blank, fewer
than 10 fields, or a token at position 1 or 9 that is not a 64-bit unsigned
decimal integer), `getSnapshot` panics, whatever the outcome of opening and
of the scanner, and so returns no map; and when the source opens and the
scanner ends without error, it panics only in that case. -/
theorem getSnapshot_panics_iff_malformed (lines : List String) :
    ((∃ line ∈ lines.drop 2, Malformed line) →
      ∀ (openErr scanErr : Option Errno),
        ∃ p, getSnapshot openErr lines scanErr = Except.error p) ∧
    ((∃ p, getSnapshot none lines none = Except.error p) →
      ∃ line ∈ lines.drop 2, Malformed line) := by
  constructor
  · rintro ⟨line, hl, hbad⟩ openErr scanErr
    cases openErr with
    | some e => exact ⟨_, rfl⟩
    | none =>
      obtain ⟨p, hp⟩ := scanLoop_rows_error (lines.drop 2) 2 ∅ (le_refl _)
        ⟨line, hl, (malformed_iff line).mp hbad⟩
      rw [← scanLoop_skips_header] at hp
      exact ⟨p, by simp only [getSnapshot, hp]⟩
  · rintro ⟨p, hp⟩
    by_contra hno
    have hw : ∀ line ∈ lines.drop 2, WellFormedRow line := by
      intro line hl
      by_contra hbad
      exact hno ⟨line, hl, (malformed_iff line).mpr hbad⟩
    have hs := scanLoop_rows_ok (lines.drop 2) 2 ∅ (le_refl _) hw
    rw [← scanLoop_skips_header] at hs
    simp [getSnapshot, hs] at hp

/-- C7 (witness): a table whose only row has three fields makes `getSnapshot`
panic, also when opening and scanning report no error. -/
theorem getSnapshot_panics_iff_malformed_witness :
    (∃ line ∈ procNetDevTruncated.drop 2, Malformed line) ∧
    (∃ p, getSnapshot none procNetDevTruncated none = Except.error p) ∧
    (∃ line ∈ procNetDevTruncated.drop 2, Malformed line) := by
  have hb : ∃ line ∈ procNetDevTruncated.drop 2, Malformed line := by decide
  have hp := (getSnapshot_panics_iff_malformed procNetDevTruncated).1 hb none none
  exact ⟨hb, hp, (getSnapshot_panics_iff_malformed procNetDevTruncated).2 hp⟩

/-! ## Claims on the stream injector and the command-line client -/

/-- C8 (failing input): the injector is started as `i3status eth0` while the
daemon of this repository listens on the socket, and reads the version line,
the opening bracket and the array lines `[1]` and `,[1]`.  It connects with
plain `rpc.Dial`, the daemon serves rpc inside HTTP only, so the first
`client.Call` never returns: after the two header lines nothing is printed,
neither for `[1]` nor for `,[1]`.  A client that connects with
`rpc.DialHTTP`, as `main` does, is answered. -/
theorem i3status_blocks_on_daemon :
    i3status sampleCodec ["i3status", "eth0"]
        (Except.ok (daemonListener (fun _ => runDaemon [snapFirst, snapSecond])))
        "\x7b\"version\":1\x7d" "[" sampleLines
      = { stdout := ["\x7b\"version\":1\x7d", "["], stderr := [],
          exit := Termination.blocked } ∧
    sampleCodec.Unmarshal (splitComma "[1]").2 = Except.ok ["1"] ∧
    sampleCodec.Unmarshal (splitComma ",[1]").2 = Except.ok ["1"] ∧
    daemonListener (fun _ => runDaemon [snapFirst, snapSecond]) Dialer.DialHTTP 0
        "StatsMap.RxRate" "eth0" = CallResult.returned (Except.ok 2000) := by
  decide

/-- C9 (counterexample): when no daemon is reachable at the moment the
injector connects, it prints nothing, not even for the array lines of its
input, and ends through `log.Fatalf` with exit status 1. -/
theorem i3status_aborts_without_daemon :
    i3status sampleCodec ["i3status"] (Except.error (error.transport "connection refused"))
        "\x7b\"version\":1\x7d" "[" sampleLines
      = { stdout := [], stderr := [Diag.dialing (error.transport "connection refused")],
          exit := Termination.exited 1 } ∧
    sampleLines.length = 2 := by
  decide

/-- C9 (amended): if no daemon is reachable when the injector connects, it
aborts: it prints no line at all and exits with status 1.  Once connected, a
call that returns an error does not abort it.  Let the lines up to line `n`
all decode to arrays and the `RxRate` and `TxRate` calls made for them all
return, with an error or with a rate.  If line `n` decodes to `items` and its
calls return `rx` and `tx`, the injector prints, at the position of that
line, the framing prefix and the array of the item `<iface>-rxrate`, the item
`<iface>-txrate` and the decoded items.  The text
of the rx item is exactly `Rx: N/A` when `rx` is an error and `Rx: ` followed
by `r.String()` when `rx` is the rate `r`, and likewise, independently, for
tx.  After the last such line the injector returns, having printed one line
per input line. -/
theorem i3status_placeholder {V : Type} (J : Codec V) (args : List String) (err : error)
    (srv : Listener) (text1 text2 : String) (lines : List String) (n : Nat) (line : String)
    (items : List V) (rx tx : Except error Rate)
    (hline : lines.get? n = some line)
    (hprev : ∀ j l, j < n → lines.get? j = some l →
      (∃ its, J.Unmarshal (splitComma l).2 = Except.ok its) ∧
      (∃ r, srv Dialer.Dial j "StatsMap.RxRate" (ifaceArg args) = CallResult.returned r) ∧
      (∃ r, srv Dialer.Dial j "StatsMap.TxRate" (ifaceArg args) = CallResult.returned r))
    (hdec : J.Unmarshal (splitComma line).2 = Except.ok items)
    (hrx : srv Dialer.Dial n "StatsMap.RxRate" (ifaceArg args) = CallResult.returned rx)
    (htx : srv Dialer.Dial n "StatsMap.TxRate" (ifaceArg args) = CallResult.returned tx) :
    ((i3status J args (Except.error err) text1 text2 lines).stdout = [] ∧
      (i3status J args (Except.error err) text1 text2 lines).exit = Termination.exited 1) ∧
    ∃ rxText txText : String,
      (i3status J args (Except.ok srv) text1 text2 lines).stdout.get? (n + 2)
        = some ((splitComma line).1 ++ "[" ++
            ",".intercalate
              (("\x7b\"name\":" ++ J.encodeString (ifaceArg args ++ "-rxrate") ++
                  ",\"full_text\":" ++ J.encodeString rxText ++ "\x7d") ::
                ("\x7b\"name\":" ++ J.encodeString (ifaceArg args ++ "-txrate") ++
                  ",\"full_text\":" ++ J.encodeString txText ++ "\x7d") ::
                items.map J.encodeValue) ++ "]") ∧
      (∀ e, rx = Except.error e → rxText = "Rx: N/A") ∧
      (∀ r, rx = Except.ok r → rxText = "Rx: " ++ Rate.String r) ∧
      (∀ e, tx = Except.error e → txText = "Tx: N/A") ∧
      (∀ r, tx = Except.ok r → txText = "Tx: " ++ Rate.String r) ∧
      (line.data.head? = some (Char.ofNat 44) → (splitComma line).1 = ",") ∧
      (line.data.head? ≠ some (Char.ofNat 44) → (splitComma line).1 = "") ∧
      (lines.length = n + 1 →
        (i3status J args (Except.ok srv) text1 text2 lines).stdout.length = lines.length + 2 ∧
        (i3status J args (Except.ok srv) text1 text2 lines).exit = Termination.returned) := by
  have hh := handleLine_of_returned J (srv Dialer.Dial n) (ifaceArg args) line items rx tx
    hdec hrx htx
  have hh0 := hh
  rw [← Nat.zero_add n] at hh0
  have hprev : allPrinted J (srv Dialer.Dial) (ifaceArg args) (lines.take n) 0 = true := by
    apply allPrinted_take_of_returned J (srv Dialer.Dial) (ifaceArg args) lines 0 n
    intro j l hj hget
    rw [Nat.zero_add]
    exact hprev j l hj hget
  refine ⟨⟨rfl, rfl⟩, rateText "Rx" rx, rateText "Tx" tx, ?_, ?_, ?_, ?_, ?_, ?_, ?_, ?_⟩
  · have := i3statusLoop_get J (srv Dialer.Dial) (ifaceArg args) lines 0 [text1, text2] n line _
      hline hprev hh0
    simpa [i3status, Nat.add_comm] using this
  · rintro e rfl; rfl
  · rintro r rfl; rfl
  · rintro e rfl; rfl
  · rintro r rfl; rfl
  · intro hhead
    cases hd : line.data with
    | nil => rw [hd] at hhead; cases hhead
    | cons c rest =>
      rw [hd] at hhead
      simp only [List.head?_cons, Option.some.injEq] at hhead
      subst hhead
      simp [splitComma, hd]
  · intro hhead
    cases hd : line.data with
    | nil => simp [splitComma, hd]
    | cons c rest =>
      rw [hd] at hhead
      simp only [List.head?_cons, ne_eq, Option.some.injEq] at hhead
      have hc : ¬ c.toNat = 44 := by
        intro h44
        apply hhead
        have : Char.ofNat c.toNat = c := Char.ofNat_toNat c
        rw [← this, h44]
      simp [splitComma, hd, hc]
  · intro hlen
    have hlt : n < lines.length := by omega
    have htake : lines.take n ++ [line] = lines := by
      have h1 : lines.take (n + 1) = lines := List.take_of_length_le (by omega)
      rw [List.get?_eq_getElem?, List.getElem?_eq_getElem hlt] at hline
      simp only [Option.some.injEq] at hline
      have h2 := List.take_concat_get lines n hlt
      rw [List.concat_eq_append, hline] at h2
      rw [h2, h1]
    have hlen2 : (lines.take n).length = n := by
      rw [List.length_take]; omega
    have hall : allPrinted J (srv Dialer.Dial) (ifaceArg args) lines 0 = true := by
      have := allPrinted_snoc J (srv Dialer.Dial) (ifaceArg args) (lines.take n) 0 line _ hprev
        (by rw [hlen2]; exact hh0)
      rw [htake] at this
      exact this
    obtain ⟨h1, h2⟩ := i3statusLoop_all J (srv Dialer.Dial) (ifaceArg args) lines 0
      [text1, text2] hall
    refine ⟨?_, by simpa [i3status] using h2⟩
    have : (i3status J args (Except.ok srv) text1 text2 lines).stdout.length
        = 2 + lines.length := by
      simpa [i3status] using h1
    omega

/-- C9 (witness): a connected injector whose `RxRate` calls fail and whose
`TxRate` calls succeed prints, for the continuation line `,[1]`, the line
with the placeholder for rx and the rate for tx in front of the item `1`. -/
theorem i3status_placeholder_witness :
    sampleLines.get? 1 = some ",[1]" ∧
    sampleLines.get? 0 = some "[1]" ∧
    sampleCodec.Unmarshal (splitComma "[1]").2 = Except.ok ["1"] ∧
    sampleCodec.Unmarshal (splitComma ",[1]").2 = Except.ok ["1"] ∧
    halfListener Dialer.Dial 1 "StatsMap.RxRate" "eth0"
      = CallResult.returned (Except.error (error.noSuchInterface "eth0")) ∧
    halfListener Dialer.Dial 1 "StatsMap.TxRate" "eth0" = CallResult.returned (Except.ok 2000) ∧
    (i3status sampleCodec ["i3status", "eth0"] (Except.ok halfListener) "\x7b\"version\":1\x7d"
        "[" sampleLines).stdout.get? 3
      = some (",[\x7b\"name\":\"eth0-rxrate\",\"full_text\":\"Rx: N/A\"\x7d," ++
          "\x7b\"name\":\"eth0-txrate\",\"full_text\":\"Tx: 1.953125KB/s\"\x7d,1]") ∧
    (i3status sampleCodec ["i3status", "eth0"] (Except.ok halfListener) "\x7b\"version\":1\x7d"
        "[" sampleLines).exit = Termination.returned := by
  have h1 : sampleLines.get? 1 = some ",[1]" := by decide
  have h0 : sampleCodec.Unmarshal (splitComma "[1]").2 = Except.ok ["1"] := by decide
  have h2 : ∀ j l, j < 1 → sampleLines.get? j = some l →
      (∃ its, sampleCodec.Unmarshal (splitComma l).2 = Except.ok its) ∧
      (∃ r, halfListener Dialer.Dial j "StatsMap.RxRate" (ifaceArg ["i3status", "eth0"])
        = CallResult.returned r) ∧
      (∃ r, halfListener Dialer.Dial j "StatsMap.TxRate" (ifaceArg ["i3status", "eth0"])
        = CallResult.returned r) := by
    intro j l hj hget
    have hj0 : j = 0 := by omega
    subst hj0
    have hl : l = "[1]" := by
      have : sampleLines.get? 0 = some "[1]" := by decide
      rw [this] at hget
      exact (Option.some.inj hget).symm
    subst hl
    exact ⟨⟨_, h0⟩, ⟨_, rfl⟩, ⟨_, rfl⟩⟩
  have h3 : sampleCodec.Unmarshal (splitComma ",[1]").2 = Except.ok ["1"] := by decide
  have h4 : halfListener Dialer.Dial 1 "StatsMap.RxRate" "eth0"
      = CallResult.returned (Except.error (error.noSuchInterface "eth0")) := by decide
  have h5 : halfListener Dialer.Dial 1 "StatsMap.TxRate" "eth0"
      = CallResult.returned (Except.ok 2000) := by decide
  obtain ⟨_, rxText, txText, hget, hrxe, _, _, htxo, _, _, hlast⟩ :=
    i3status_placeholder sampleCodec ["i3status", "eth0"] (error.transport "") halfListener
      "\x7b\"version\":1\x7d" "[" sampleLines 1 ",[1]" ["1"]
      (Except.error (error.noSuchInterface "eth0")) (Except.ok 2000) h1 h2 h3 h4 h5
  have e1 : rxText = "Rx: N/A" := hrxe _ rfl
  have e2 : txText = "Tx: " ++ Rate.String 2000 := htxo 2000 rfl
  subst e1 e2
  refine ⟨h1, by decide, h0, h3, h4, h5, ?_, (hlast (by decide)).2⟩
  rw [hget]
  decide

/-- C10 (failing input): the client is asked for `RxRate` of `wlp2s0`, the
daemon is reachable and answers "no such interface".  `main` prints the error
to standard error and returns, so the exit status is 0, whereas a wrong number
of arguments, an unreachable daemon and an unknown method all exit with
status 1. -/
theorem main_query_error_exits_zero :
    main false "wlp2s0" ["RxRate"] none (serve ∅)
      = { stdout := ["found dumbw daemon - running as client\n"],
          stderr := [Diag.queryError (error.noSuchInterface "wlp2s0")],
          exit := Termination.returned } ∧
    (main false "wlp2s0" ["RxRate"] none (serve ∅)).exit.exitCode = some 0 ∧
    (main false "wlp2s0" [] none (serve ∅)).exit.exitCode = some 1 ∧
    (main false "wlp2s0" ["RxRate", "TxRate"] none (serve ∅)).exit.exitCode = some 1 ∧
    (main false "wlp2s0" ["RxRate"] (some (error.transport "connection refused"))
      (serve ∅)).exit.exitCode = some 1 ∧
    (main false "wlp2s0" ["Bogus"] none (serve ∅)).exit.exitCode = some 1 := by
  decide

end Dumbw
